import Mathlib

/-!
# User-broker HTTP server: request dispatch and response mapping

A shallow embedding of `contrib/pkg/brokers/userbroker/server/server.go`
(the six handlers and the routing table built by `CreateHandler`) together
with the `Broker` interface it is polymorphic over, followed by theorems
about what the handlers pass to the broker and what they write to the
response.

Go values are embedded as follows.

* A pointer or map that may be `nil` is an `Option`.
* A `map[string]interface{}` is an association list read with `mapGet`
  and written with `mapSet`; values are JSON documents.
* `http.ResponseWriter` is a record that is threaded through the handler;
  it follows the contract of `net/http`: the header map is committed by
  the first `WriteHeader` (or `Write`), later changes to it are not sent.
* Calls to the broker are recorded in order in a call log.
* The router follows gorilla/mux: a path that is not clean is redirected,
  otherwise the first route whose method and template match is taken.
* JSON text is written as `encoding/json` writes it and can be read back:
  `JSON.parse` undoes `JSON.render` on every well-formed document.
-/

namespace UserBroker

/-! ## JSON documents and `encoding/json` -/

/-- A JSON document as it is written: what `json.Marshal` produces before it
is put out as text, and what a decoded body holds under `interface{}`. The
members of an object are in the order of the text (for a struct the order of
its fields); a number is kept as its literal, so every form `encoding/json`
writes, such as `0`, `-1.5` or `1e+21`, is a document. -/
inductive JSON where
  | null : JSON
  | bool (b : Bool) : JSON
  | num (literal : String) : JSON
  | str (s : String) : JSON
  | arr (xs : List JSON) : JSON
  | obj (kvs : List (String × JSON)) : JSON
  deriving Inhabited

/-- One hexadecimal digit, in lower case. -/
def hexDigit (n : Nat) : Char :=
  if n < 10 then Char.ofNat (48 + n) else Char.ofNat (87 + n)

/-- Escape one character the way `encoding/json` does inside a string, with
HTML escaping on as in `json.Marshal`: the quote and the backslash get a
backslash; backspace, form feed, newline, carriage return and tab get their
letter; the other control characters and the characters less-than,
greater-than and ampersand are written as `\u00XX`; the line and paragraph
separators U+2028 and U+2029 are written as `\u2028` and `\u2029`. -/
def escapeChar (c : Char) : List Char :=
  if c = '"' then ['\\', '"']
  else if c = '\\' then ['\\', '\\']
  else if c.toNat = 8 then ['\\', 'b']
  else if c.toNat = 12 then ['\\', 'f']
  else if c = '\n' then ['\\', 'n']
  else if c = '\r' then ['\\', 'r']
  else if c = '\t' then ['\\', 't']
  else if c.toNat < 32 ∨ c = '<' ∨ c = '>' ∨ c = '&' then
    ['\\', 'u', '0', '0', hexDigit (c.toNat / 16), hexDigit (c.toNat % 16)]
  else if c.toNat = 0x2028 then ['\\', 'u', '2', '0', '2', '8']
  else if c.toNat = 0x2029 then ['\\', 'u', '2', '0', '2', '9']
  else [c]

/-- A JSON string literal, quoted and escaped. -/
def quote (s : String) : List Char :=
  '"' :: (s.data.flatMap escapeChar ++ ['"'])

/-- Join rendered items with commas. -/
def commaSep : List (List Char) → List Char
  | [] => []
  | [x] => x
  | x :: y :: rest => x ++ ',' :: commaSep (y :: rest)

mutual
/-- The text of a JSON document, without insignificant white space. -/
def JSON.chars : JSON → List Char
  | .null => "null".data
  | .bool true => "true".data
  | .bool false => "false".data
  | .num literal => literal.data
  | .str s => quote s
  | .arr xs => '[' :: (commaSep (JSON.charsList xs) ++ [']'])
  | .obj kvs => '\x7b' :: (commaSep (JSON.charsFields kvs) ++ ['\x7d'])
/-- The texts of the elements of an array. -/
def JSON.charsList : List JSON → List (List Char)
  | [] => []
  | x :: xs => JSON.chars x :: JSON.charsList xs
/-- The texts of the members of an object. -/
def JSON.charsFields : List (String × JSON) → List (List Char)
  | [] => []
  | (k, v) :: kvs => (quote k ++ ':' :: JSON.chars v) :: JSON.charsFields kvs
end

/-- The text of a JSON document as a string. -/
def JSON.render (j : JSON) : String := String.mk j.chars

/-! ### Reading JSON text -/

/-- The characters a number literal is made of. -/
def numChar (c : Char) : Bool :=
  c.isDigit || c = '-' || c = '+' || c = '.' || c = 'e' || c = 'E'

/-- One or more digits and nothing else. -/
def allDigits1 : List Char → Bool
  | [] => false
  | c :: cs => c.isDigit && cs.all Char.isDigit

/-- The exponent of a number literal, if any, up to the end. -/
def expPart : List Char → Bool
  | [] => true
  | c :: cs =>
    if c = 'e' ∨ c = 'E' then
      match cs with
      | [] => false
      | d :: ds => if d = '+' ∨ d = '-' then allDigits1 ds else allDigits1 (d :: ds)
    else false

/-- The fraction and exponent of a number literal, if any, up to the end. -/
def fracPart (l : List Char) : Bool :=
  match l with
  | [] => true
  | c :: cs =>
    if c = '.' then
      allDigits1 (cs.takeWhile Char.isDigit) && expPart (cs.dropWhile Char.isDigit)
    else expPart (c :: cs)

/-- The integer part of a number literal (a zero, or digits that do not start
with a zero) and what follows it. -/
def intPart : List Char → Bool
  | [] => false
  | c :: cs =>
    if c = '0' then fracPart cs
    else c.isDigit && fracPart (cs.dropWhile Char.isDigit)

/-- The grammar of a JSON number literal. -/
def numberGrammar : List Char → Bool
  | [] => false
  | c :: cs => if c = '-' then intPart cs else intPart (c :: cs)

/-- Whether a text is a JSON number literal. -/
def validNumber (l : List Char) : Bool := l.all numChar && numberGrammar l

/-- The value of a hexadecimal digit. -/
def hexVal (c : Char) : Option Nat :=
  if c.isDigit then some (c.toNat - 48)
  else if 'a' ≤ c ∧ c ≤ 'f' then some (c.toNat - 87)
  else if 'A' ≤ c ∧ c ≤ 'F' then some (c.toNat - 55)
  else none

/-- The character written as `\uXXXX`; a surrogate is not read. -/
def hex4 (a b c d : Char) : Option Char :=
  match hexVal a, hexVal b, hexVal c, hexVal d with
  | some x, some y, some z, some w =>
    let n := ((x * 16 + y) * 16 + z) * 16 + w
    if 0xD800 ≤ n ∧ n ≤ 0xDFFF then none else some (Char.ofNat n)
  | _, _, _, _ => none

/-- The character a one-letter escape stands for. -/
def unescape (e : Char) : Option Char :=
  if e = '"' then some '"'
  else if e = '\\' then some '\\'
  else if e = '/' then some '/'
  else if e = 'b' then some (Char.ofNat 8)
  else if e = 'f' then some (Char.ofNat 12)
  else if e = 'n' then some '\n'
  else if e = 'r' then some '\r'
  else if e = 't' then some '\t'
  else none

/-- Read a string literal after its opening quote: the characters it stands
for and the text after the closing quote. -/
def parseString : List Char → Option (List Char × List Char)
  | [] => none
  | c :: cs =>
    if c = '"' then some ([], cs)
    else if c = '\\' then
      match cs with
      | [] => none
      | e :: rest =>
        if e = 'u' then
          match rest with
          | a :: b :: c2 :: d :: rest1 =>
            match hex4 a b c2 d with
            | some ch => (parseString rest1).map (fun p => (ch :: p.1, p.2))
            | none => none
          | _ => none
        else
          match unescape e with
          | some ch => (parseString rest).map (fun p => (ch :: p.1, p.2))
          | none => none
    else if c.toNat < 32 then none
    else (parseString cs).map (fun p => (c :: p.1, p.2))

/-- Read a fixed word. -/
def expect (word : List Char) (cs : List Char) : Option (List Char) :=
  if word.isPrefixOf cs then some (cs.drop word.length) else none

mutual
/-- Read one JSON value from the front of a text written without white space:
the document and the text after it. The first argument bounds the work. -/
def parseValue : Nat → List Char → Option (JSON × List Char)
  | 0, _ => none
  | _ + 1, [] => none
  | fuel + 1, c :: cs =>
    if c = 'n' then (expect "ull".data cs).map (fun r => (JSON.null, r))
    else if c = 't' then (expect "rue".data cs).map (fun r => (JSON.bool true, r))
    else if c = 'f' then (expect "alse".data cs).map (fun r => (JSON.bool false, r))
    else if c = '"' then (parseString cs).map (fun p => (JSON.str (String.mk p.1), p.2))
    else if c = '[' then
      if cs.head? = some ']' then some (JSON.arr [], cs.tail)
      else (parseElems fuel cs).map (fun p => (JSON.arr p.1, p.2))
    else if c = '\x7b' then
      if cs.head? = some '\x7d' then some (JSON.obj [], cs.tail)
      else (parseMembers fuel cs).map (fun p => (JSON.obj p.1, p.2))
    else
      let lit := (c :: cs).takeWhile numChar
      if validNumber lit then some (JSON.num (String.mk lit), (c :: cs).dropWhile numChar)
      else none
/-- Read the elements of an array that is not empty, up to its closing bracket. -/
def parseElems : Nat → List Char → Option (List JSON × List Char)
  | 0, _ => none
  | fuel + 1, cs =>
    match parseValue fuel cs with
    | some (v, ',' :: rest) => (parseElems fuel rest).map (fun p => (v :: p.1, p.2))
    | some (v, ']' :: rest) => some ([v], rest)
    | _ => none
/-- Read the members of an object that is not empty, up to its closing brace. -/
def parseMembers : Nat → List Char → Option (List (String × JSON) × List Char)
  | 0, _ => none
  | fuel + 1, cs =>
    match cs with
    | '"' :: cs1 =>
      match parseString cs1 with
      | some (k, ':' :: cs2) =>
        match parseValue fuel cs2 with
        | some (v, ',' :: rest) =>
          (parseMembers fuel rest).map (fun p => ((String.mk k, v) :: p.1, p.2))
        | some (v, '\x7d' :: rest) => some ([(String.mk k, v)], rest)
        | _ => none
      | _ => none
    | _ => none
end

/-- Read a whole text as one JSON document. -/
def JSON.parse (text : String) : Option JSON :=
  match parseValue (text.data.length + 1) text.data with
  | some (j, []) => some j
  | _ => none

/-- Member `k` of a JSON object. -/
def JSON.field (k : String) : JSON → Option JSON
  | .obj kvs => kvs.lookup k
  | _ => none

/-- Element `i` of a JSON array. -/
def JSON.index (i : Nat) : JSON → Option JSON
  | .arr xs => xs.get? i
  | _ => none

/-- The text of a JSON string. -/
def JSON.asString : JSON → Option String
  | .str s => some s
  | _ => none

mutual
/-- Whether every number in a document is a JSON number literal. -/
def JSON.wellFormed : JSON → Bool
  | .null => true
  | .bool _ => true
  | .num literal => validNumber literal.data
  | .str _ => true
  | .arr xs => JSON.wellFormedList xs
  | .obj kvs => JSON.wellFormedFields kvs
/-- Whether the elements of an array are well formed. -/
def JSON.wellFormedList : List JSON → Bool
  | [] => true
  | x :: xs => JSON.wellFormed x && JSON.wellFormedList xs
/-- Whether the members of an object are well formed. -/
def JSON.wellFormedFields : List (String × JSON) → Bool
  | [] => true
  | (_, v) :: kvs => JSON.wellFormed v && JSON.wellFormedFields kvs
end

/-- Whether nothing of a number literal can follow: the text is at its end or
goes on with a character no number contains. -/
def terminated (rest : List Char) : Prop := ∀ c, rest.head? = some c → numChar c = false

/-! ## `map[string]interface{}` -/

/-- A Go map with string keys that is not nil: `map[string]interface{}` when
the values are JSON documents, the header map when they are strings. -/
abbrev GoMap (β : Type) := List (String × β)

/-- The value stored under key `k`, as in `v, ok := m[k]`. -/
def mapGet {β : Type} (m : GoMap β) (k : String) : Option β := m.lookup k

/-- The assignment `m[k] = v`: the entry under `k` is replaced or created,
every other entry is kept. -/
def mapSet {β : Type} : GoMap β → String → β → GoMap β
  | [], k, v => [(k, v)]
  | (k', v') :: rest, k, v =>
    if k' = k then (k, v) :: rest else (k', v') :: mapSet rest k v

/-- The keys of a map, `len(m)` being their number. -/
def mapKeys {β : Type} (m : GoMap β) : List String := m.map Prod.fst

/-- The empty map made by `make(map[string]interface{})`. -/
def makeMap {β : Type} : GoMap β := []

/-! ## Errors -/

/-- A Go `error` value: the text its `Error()` method returns and the
exported fields of its concrete type, which are all that `encoding/json`
can see of it. -/
structure GoError where
  message : String
  exported : List (String × JSON)

/-- The error made by `errors.New(text)`: its only field is unexported. -/
def errorsNew (text : String) : GoError := ⟨text, []⟩

/-! ## The broker API records -/

/-- Modelled from the spec: `brokerapi.Service`, declared outside the sources
at hand; a service descriptor has a name, an id, a description and a plan
list, the plans being carried as documents; the plan list is a slice and may
be nil. -/
structure Service where
  Name : String
  ID : String
  Description : String
  Plans : Option (List JSON)

/-- Modelled from the spec: `brokerapi.Catalog`, declared outside the sources
at hand; an ordered sequence of service descriptors under the key
`services`. -/
structure Catalog where
  Services : List Service

/-- Modelled from the spec: `brokerapi.CreateServiceInstanceRequest`, declared
outside the sources at hand; `service_id`, `plan_id` and an optional
parameter bag, nil when the body omits it. -/
structure CreateServiceInstanceRequest where
  ServiceID : String
  PlanID : String
  Parameters : Option (GoMap JSON)

/-- Modelled from the spec: `brokerapi.BindingRequest`, declared outside the
sources at hand; the same shape as the create request. -/
structure BindingRequest where
  ServiceID : String
  PlanID : String
  Parameters : Option (GoMap JSON)

/-- Modelled from the spec: `brokerapi.CreateServiceInstanceResponse`, declared
outside the sources at hand; an opaque pass-through payload, carried as the
document `json.Marshal` makes of the record. -/
structure CreateServiceInstanceResponse where
  payload : JSON

/-- Modelled from the spec: `brokerapi.DeleteServiceInstanceResponse`, declared
outside the sources at hand; an opaque pass-through payload, carried as the
document `json.Marshal` makes of the record. -/
structure DeleteServiceInstanceResponse where
  payload : JSON

/-- Modelled from the spec: `brokerapi.CreateServiceBindingResponse`, declared
outside the sources at hand; an opaque pass-through payload, carried as the
document `json.Marshal` makes of the record. -/
structure CreateServiceBindingResponse where
  payload : JSON

/-- The document of a service descriptor. -/
def Service.toJSON (s : Service) : JSON :=
  .obj [("name", .str s.Name), ("id", .str s.ID), ("description", .str s.Description),
        ("plans", match s.Plans with
                  | none => .null
                  | some plans => .arr plans)]

/-- The document of a catalog. -/
def Catalog.toJSON (c : Catalog) : JSON :=
  .obj [("services", .arr (c.Services.map Service.toJSON))]

/-- The values the handlers hand to `util.WriteResponse` as `interface{}`:
the results of the broker operations (pointers may be nil) and errors. -/
inductive Object where
  | catalog (c : Option Catalog) : Object
  | string (s : String) : Object
  | createServiceInstanceResponse (r : Option CreateServiceInstanceResponse) : Object
  | deleteServiceInstanceResponse (r : Option DeleteServiceInstanceResponse) : Object
  | createServiceBindingResponse (r : Option CreateServiceBindingResponse) : Object
  | error (e : GoError) : Object

/-- The document `encoding/json` makes of a value: a nil pointer is `null`,
a struct is the object of its exported fields. -/
def Object.toJSON : Object → JSON
  | .catalog none => .null
  | .catalog (some c) => c.toJSON
  | .string s => .str s
  | .createServiceInstanceResponse none => .null
  | .createServiceInstanceResponse (some r) => r.payload
  | .deleteServiceInstanceResponse none => .null
  | .deleteServiceInstanceResponse (some r) => r.payload
  | .createServiceBindingResponse none => .null
  | .createServiceBindingResponse (some r) => r.payload
  | .error e => .obj e.exported

/-- The text `json.Marshal` returns for a value. -/
def Marshal (o : Object) : String := o.toJSON.render

/-! ## `http.ResponseWriter` -/

def StatusOK : Nat := 200
def StatusCreated : Nat := 201
def StatusBadRequest : Nat := 400
def StatusNotFound : Nat := 404

/-- The state of an `http.ResponseWriter`. `header` is the map `Header()`
returns; `sentHeader` and `status` are what goes on the wire, fixed by the
first `WriteHeader`; `body` is the text written so far. -/
structure ResponseWriter where
  header : GoMap String
  wroteHeader : Bool
  status : Nat
  sentHeader : GoMap String
  body : String

/-- The writer a handler is given for a new request. -/
def ResponseWriter.fresh : ResponseWriter :=
  { header := [], wroteHeader := false, status := 0, sentHeader := [], body := "" }

/-- The call `w.Header().Set(k, v)`. -/
def ResponseWriter.HeaderSet (w : ResponseWriter) (k v : String) : ResponseWriter :=
  { w with header := mapSet w.header k v }

/-- The call `w.WriteHeader(code)`: sends the status line and the header map
as it is now; a second call is ignored. -/
def ResponseWriter.WriteHeader (w : ResponseWriter) (code : Nat) : ResponseWriter :=
  if w.wroteHeader then w
  else { w with wroteHeader := true, status := code, sentHeader := w.header }

/-- Writing `text` to the body, as `fmt.Fprint(w, text)` does: the header is
sent with status 200 first when it has not been sent yet. -/
def ResponseWriter.Write (w : ResponseWriter) (text : String) : ResponseWriter :=
  let w1 := if w.wroteHeader then w else w.WriteHeader StatusOK
  { w1 with body := w1.body ++ text }

/-- The `Content-Type` header the client receives: the one in the header that
was sent, and when that has none, the type the server detects from the body
(`http.DetectContentType`, passed as `sniff`). -/
def ResponseWriter.clientContentType (sniff : String → String) (w : ResponseWriter) : String :=
  match mapGet w.sentHeader "Content-Type" with
  | some v => v
  | none => sniff w.body

/-- Modelled from the spec: `util.WriteResponse` of `pkg/util`, which is
outside the sources at hand. It encodes `object` as the response body and
responds with status `code`, the content type being the JSON media type. -/
def WriteResponse (w : ResponseWriter) (code : Nat) (object : Object) : ResponseWriter :=
  ((w.HeaderSet "Content-Type" "application/json").WriteHeader code).Write (Marshal object)

/-! ## Requests, the broker interface and the call log -/

/-- An inbound request: method, URL path, body, and the path variables the
router extracted (`mux.Vars(r)`). -/
structure Request where
  Method : String
  Path : String
  Body : String
  Vars : GoMap String

/-- The expression `mux.Vars(r)[name]`: the empty string when absent. -/
def Request.Var (r : Request) (name : String) : String :=
  (mapGet r.Vars name).getD ""

/-- Modelled from the spec: `util.BodyToObject` of `pkg/util`, which is
outside the sources at hand. It decodes the body of a request into a record
or fails with an error; it is taken as a parameter, a function of the body
text, once for each record type the handlers decode. -/
structure Util where
  BodyToCreateServiceInstanceRequest : String → Except GoError CreateServiceInstanceRequest
  BodyToBindingRequest : String → Except GoError BindingRequest

/-- The `Broker` interface over a broker state `σ`. Each operation returns its
Go result pair (result, error), the error being nil on success, and the next
state. -/
structure Broker (σ : Type) where
  Catalog : σ → (Option Catalog × Option GoError) × σ
  GetServiceInstance : String → σ → (String × Option GoError) × σ
  CreateServiceInstance : String → CreateServiceInstanceRequest → σ →
    (Option CreateServiceInstanceResponse × Option GoError) × σ
  RemoveServiceInstance : String → σ →
    (Option DeleteServiceInstanceResponse × Option GoError) × σ
  Bind : String → String → BindingRequest → σ →
    (Option CreateServiceBindingResponse × Option GoError) × σ
  UnBind : String → String → σ → Option GoError × σ

/-- One invocation of a broker operation, with the arguments it was given. -/
inductive BrokerCall where
  | Catalog : BrokerCall
  | GetServiceInstance (id : String) : BrokerCall
  | CreateServiceInstance (id : String) (req : CreateServiceInstanceRequest) : BrokerCall
  | RemoveServiceInstance (id : String) : BrokerCall
  | Bind (instanceID bindingID : String) (req : BindingRequest) : BrokerCall
  | UnBind (instanceID bindingID : String) : BrokerCall

/-- What a handler works on: the response writer, the log of broker
invocations made so far, and the state of the broker. -/
structure Exec (σ : Type) where
  w : ResponseWriter
  calls : List BrokerCall
  st : σ

/-- The situation at the start of a request. -/
def Exec.start {σ : Type} (st : σ) : Exec σ :=
  { w := ResponseWriter.fresh, calls := [], st := st }

/-- Run a broker operation on the broker state and log the invocation. -/
def Exec.invoke {σ α : Type} (x : Exec σ) (c : BrokerCall) (op : σ → α × σ) : α × Exec σ :=
  ((op x.st).1, { x with calls := x.calls ++ [c], st := (op x.st).2 })

/-- The situation right after a broker operation `op` was invoked as `c`. -/
def Exec.after {σ α : Type} (x : Exec σ) (c : BrokerCall) (op : σ → α × σ) : Exec σ :=
  { x with calls := x.calls ++ [c], st := (op x.st).2 }

/-- Apply `util.WriteResponse` to the response writer. -/
def Exec.WriteResponse {σ : Type} (x : Exec σ) (code : Nat) (object : Object) : Exec σ :=
  { x with w := UserBroker.WriteResponse x.w code object }

/-- The `server` struct. -/
structure server (σ : Type) where
  broker : Broker σ

/-! ## The handlers -/

/-- The step `if req.Parameters == nil \x7b req.Parameters = make(...) \x7d` of
`createServiceInstance`. -/
def CreateServiceInstanceRequest.defaultParameters (req : CreateServiceInstanceRequest) :
    CreateServiceInstanceRequest :=
  if req.Parameters.isNone then { req with Parameters := some makeMap } else req

/-- The step `if req.Parameters == nil \x7b req.Parameters = make(...) \x7d` of
`bind`. -/
def BindingRequest.defaultParameters (req : BindingRequest) : BindingRequest :=
  if req.Parameters.isNone then { req with Parameters := some makeMap } else req

/-- The step `req.Parameters["instanceId"] = instanceID` of `bind`; it runs
after the defaulting step, so the map is never nil here. -/
def BindingRequest.setInstanceId (req : BindingRequest) (instanceID : String) : BindingRequest :=
  let m := mapSet (req.Parameters.getD makeMap) "instanceId" (JSON.str instanceID)
  { req with Parameters := some m }

/-- The request `bind` hands to the broker for a decoded request. -/
def BindingRequest.forwarded (req : BindingRequest) (instanceID : String) : BindingRequest :=
  req.defaultParameters.setInstanceId instanceID

/-- Handler `catalog`. -/
def server.catalog {σ : Type} (s : server σ) (x : Exec σ) (_r : Request) : Exec σ :=
  match x.invoke .Catalog s.broker.Catalog with
  | ((result, none), x) => x.WriteResponse StatusOK (.catalog result)
  | ((_, some err), x) => x.WriteResponse StatusBadRequest (.error err)

/-- Handler `getServiceInstance`. -/
def server.getServiceInstance {σ : Type} (s : server σ) (x : Exec σ) (r : Request) : Exec σ :=
  let id := r.Var "instance_id"
  match x.invoke (.GetServiceInstance id) (s.broker.GetServiceInstance id) with
  | ((result, none), x) => x.WriteResponse StatusOK (.string result)
  | ((_, some err), x) => x.WriteResponse StatusBadRequest (.error err)

/-- Handler `createServiceInstance`. -/
def server.createServiceInstance {σ : Type} (u : Util) (s : server σ) (x : Exec σ)
    (r : Request) : Exec σ :=
  let id := r.Var "instance_id"
  match u.BodyToCreateServiceInstanceRequest r.Body with
  | .error err => x.WriteResponse StatusBadRequest (.error err)
  | .ok req =>
    let req := req.defaultParameters
    match x.invoke (.CreateServiceInstance id req) (s.broker.CreateServiceInstance id req) with
    | ((result, none), x) => x.WriteResponse StatusCreated (.createServiceInstanceResponse result)
    | ((_, some err), x) => x.WriteResponse StatusBadRequest (.error err)

/-- Handler `removeServiceInstance`. -/
def server.removeServiceInstance {σ : Type} (s : server σ) (x : Exec σ) (r : Request) : Exec σ :=
  let id := r.Var "instance_id"
  match x.invoke (.RemoveServiceInstance id) (s.broker.RemoveServiceInstance id) with
  | ((result, none), x) => x.WriteResponse StatusOK (.deleteServiceInstanceResponse result)
  | ((_, some err), x) => x.WriteResponse StatusBadRequest (.error err)

/-- Handler `bind`. -/
def server.bind {σ : Type} (u : Util) (s : server σ) (x : Exec σ) (r : Request) : Exec σ :=
  let bindingID := r.Var "binding_id"
  let instanceID := r.Var "instance_id"
  match u.BodyToBindingRequest r.Body with
  | .error err => x.WriteResponse StatusBadRequest (.error err)
  | .ok req =>
    let req := req.defaultParameters
    let req := req.setInstanceId instanceID
    match x.invoke (.Bind instanceID bindingID req) (s.broker.Bind instanceID bindingID req) with
    | ((result, none), x) => x.WriteResponse StatusOK (.createServiceBindingResponse result)
    | ((_, some err), x) => x.WriteResponse StatusBadRequest (.error err)

/-- Handler `unBind`. On success it sends the header with status 200, then
sets the content type in the header map, then writes the body. -/
def server.unBind {σ : Type} (s : server σ) (x : Exec σ) (r : Request) : Exec σ :=
  let instanceID := r.Var "instance_id"
  let bindingID := r.Var "binding_id"
  match x.invoke (.UnBind instanceID bindingID) (s.broker.UnBind instanceID bindingID) with
  | (none, x) =>
    { x with w := ((x.w.WriteHeader StatusOK).HeaderSet "Content-Type" "application/json").Write
                    "\x7b\x7d" }
  | (some err, x) => x.WriteResponse StatusBadRequest (.error err)

/-! ## The router built by `CreateHandler` -/

/-- Cut a text at every slash. -/
def splitSlash : List Char → List (List Char)
  | [] => [[]]
  | c :: cs =>
    if c = '/' then [] :: splitSlash cs
    else match splitSlash cs with
      | [] => [[c]]
      | seg :: rest => (c :: seg) :: rest

/-- The segments of a URL path or of a path template. -/
def segments (path : String) : List String := (splitSlash path.data).map String.mk

/-- One segment of a path template: literal text or a variable in braces,
which matches any non-empty segment. -/
inductive Seg where
  | lit (text : String) : Seg
  | var (name : String) : Seg
  deriving DecidableEq, Repr

/-- Read one template segment: `\x7bname\x7d` is a variable. -/
def Seg.parse (text : String) : Seg :=
  match text.data with
  | '\x7b' :: rest =>
    if rest.getLast? = some '\x7d' then .var (String.mk rest.dropLast) else .lit text
  | _ => .lit text

/-- Match the segments of a path against a template, collecting the
variables. -/
def matchSegs : List Seg → List String → Option (GoMap String)
  | [], [] => some []
  | .lit text :: ps, x :: xs => if text = x then matchSegs ps xs else none
  | .var name :: ps, x :: xs =>
    if x = "" then none else (matchSegs ps xs).map (fun vars => (name, x) :: vars)
  | _, _ => none

/-- The six handlers, by name. -/
inductive HandlerName where
  | catalog | getServiceInstance | createServiceInstance
  | removeServiceInstance | bind | unBind
  deriving DecidableEq, Repr

/-- A registered route: `router.HandleFunc(template, handler).Methods(method)`. -/
structure Route where
  template : String
  handler : HandlerName
  method : String

/-- The routes `CreateHandler` registers, in order. -/
def routes : List Route :=
  [ ⟨"/v2/catalog", .catalog, "GET"⟩,
    ⟨"/v2/service_instances/\x7binstance_id\x7d", .getServiceInstance, "GET"⟩,
    ⟨"/v2/service_instances/\x7binstance_id\x7d", .createServiceInstance, "PUT"⟩,
    ⟨"/v2/service_instances/\x7binstance_id\x7d", .removeServiceInstance, "DELETE"⟩,
    ⟨"/v2/service_instances/\x7binstance_id\x7d/service_bindings/\x7bbinding_id\x7d", .bind, "PUT"⟩,
    ⟨"/v2/service_instances/\x7binstance_id\x7d/service_bindings/\x7bbinding_id\x7d", .unBind,
      "DELETE"⟩ ]

/-- Whether a route matches a request, and with which variables. -/
def Route.matches (rt : Route) (r : Request) : Option (GoMap String) :=
  if rt.method = r.Method then
    matchSegs ((segments rt.template).map Seg.parse) (segments r.Path)
  else none

/-- The first registered route that matches the request. -/
def findRoute : List Route → Request → Option (HandlerName × GoMap String)
  | [], _ => none
  | rt :: rest, r =>
    match rt.matches r with
    | some vars => some (rt.handler, vars)
    | none => findRoute rest r

/-- Run the handler of that name. -/
def server.handle {σ : Type} (u : Util) (s : server σ) (h : HandlerName) (x : Exec σ)
    (r : Request) : Exec σ :=
  match h with
  | .catalog => s.catalog x r
  | .getServiceInstance => s.getServiceInstance x r
  | .createServiceInstance => s.createServiceInstance u x r
  | .removeServiceInstance => s.removeServiceInstance x r
  | .bind => s.bind u x r
  | .unBind => s.unBind x r

/-- The path elements `path.Clean` keeps of a rooted path, given its elements
in order and the ones kept so far (last first): an empty element and `.` are
dropped, `..` removes the element kept last, if any. -/
def cleanElems : List (List Char) → List (List Char) → List (List Char)
  | [], kept => kept.reverse
  | seg :: rest, kept =>
    if seg = [] ∨ seg = ['.'] then cleanElems rest kept
    else if seg = ['.', '.'] then cleanElems rest kept.tail
    else cleanElems rest (seg :: kept)

/-- Join path elements with slashes. -/
def joinSlash : List (List Char) → List Char
  | [] => []
  | [x] => x
  | x :: y :: rest => x ++ '/' :: joinSlash (y :: rest)

/-- Go's `path.Clean` on a rooted path. -/
def pathClean (p : List Char) : List Char :=
  '/' :: joinSlash (cleanElems (splitSlash p) [])

/-- The router's `cleanPath`: the empty path is the root; a path is rooted first
and then cleaned with `path.Clean`; the trailing slash that removes is put
back. -/
def cleanPath (p : String) : String :=
  if p.data = [] then "/"
  else
    let rooted := if p.data.head? = some '/' then p.data else '/' :: p.data
    let np := pathClean rooted
    if rooted.getLast? = some '/' ∧ np ≠ ['/'] then String.mk (np ++ ['/']) else String.mk np

def StatusMovedPermanently : Nat := 301

/-- The handler `CreateHandler` returns, serving one request from a fresh
response writer. The router first cleans the path and, when that changes it,
answers with a redirect to the clean path and runs no handler. Otherwise the
first matching route's handler runs with the path variables set; a request no
route matches reaches no handler and gets the router's not-found response
(later versions of the router answer 405 instead when only the method
differs). -/
def CreateHandler {σ : Type} (u : Util) (b : Broker σ) (r : Request) (st : σ) : Exec σ :=
  let s : server σ := { broker := b }
  if cleanPath r.Path ≠ r.Path then
    let x := Exec.start st
    { x with w := (x.w.HeaderSet "Location" (cleanPath r.Path)).WriteHeader
                    StatusMovedPermanently }
  else
    match findRoute routes r with
    | some (h, vars) => s.handle u h (Exec.start st) { r with Vars := vars }
    | none =>
      let x := Exec.start st
      { x with w := ((x.w.HeaderSet "Content-Type" "text/plain; charset=utf-8").WriteHeader
                      StatusNotFound).Write "404 page not found\n" }

/-- A path token the router hands to a handler as a variable: not empty,
without a slash, and neither of the elements `.` and `..` that path cleaning
removes. -/
def pathToken (t : String) : Prop := t ≠ "" ∧ '/' ∉ t.data ∧ t ≠ "." ∧ t ≠ ".."

instance (t : String) : Decidable (pathToken t) := by
  unfold pathToken; exact inferInstance

/-! ## Example brokers -/

/-- A broker without state whose operations all succeed; `Catalog` offers one
service named `foo`. -/
def okBroker : Broker Unit where
  Catalog st := ((some ⟨[⟨"foo", "", "", none⟩]⟩, none), st)
  GetServiceInstance id st := ((id, none), st)
  CreateServiceInstance id _ st := ((some ⟨.obj [("instance_id", .str id)]⟩, none), st)
  RemoveServiceInstance _ st := ((some ⟨.obj []⟩, none), st)
  Bind _ b _ st := ((some ⟨.obj [("binding_id", .str b)]⟩, none), st)
  UnBind _ _ st := (none, st)

/-- A broker without state whose operations all fail with the error `e`. -/
def failingBroker (e : GoError) : Broker Unit where
  Catalog st := ((none, some e), st)
  GetServiceInstance _ st := (("", some e), st)
  CreateServiceInstance _ _ st := ((none, some e), st)
  RemoveServiceInstance _ st := ((none, some e), st)
  Bind _ _ _ st := ((none, some e), st)
  UnBind _ _ st := (some e, st)

/-- A broker whose state is the list of live bindings, as pairs (instance id,
binding id): `Bind` adds one, `UnBind` removes it and reports an error when
there is none to remove. -/
def bindingBroker : Broker (List (String × String)) where
  Catalog st := ((some ⟨[]⟩, none), st)
  GetServiceInstance id st := ((id, none), st)
  CreateServiceInstance _ _ st := ((some ⟨.obj []⟩, none), st)
  RemoveServiceInstance _ st := ((some ⟨.obj []⟩, none), st)
  Bind i b _ st := ((some ⟨.obj []⟩, none), (i, b) :: st)
  UnBind i b st :=
    if (i, b) ∈ st then (none, st.filter (fun p => p ≠ (i, b)))
    else (some (errorsNew "binding not found"), st)

/-- The body of a request that omits `parameters`. -/
def bodyWithoutParameters : String := "\x7b\"service_id\":\"s1\",\"plan_id\":\"p1\"\x7d"

/-- The body of a bind request whose parameters set `instanceId` to another
value and carry a further key. -/
def bodyWithOtherInstanceId : String :=
  "\x7b\"parameters\":\x7b\"instanceId\":\"other\",\"user\":\"u\"\x7d\x7d"

/-- The error `json.Unmarshal` returns for an empty body: a `*json.SyntaxError`
whose text is unexported and whose only exported field is `Offset`. -/
def endOfInputError : GoError := ⟨"unexpected end of JSON input", [("Offset", .num "0")]⟩

/-- A decoder given by a table of three bodies: the body without parameters,
the body whose parameters set `instanceId` and `user`, and the empty body, on
which it fails as `json.Unmarshal` does. A body outside the table is given the
same error. -/
def sampleUtil : Util where
  BodyToCreateServiceInstanceRequest body :=
    if body = bodyWithoutParameters then .ok ⟨"s1", "p1", none⟩
    else .error endOfInputError
  BodyToBindingRequest body :=
    if body = bodyWithoutParameters then .ok ⟨"s1", "p1", none⟩
    else if body = bodyWithOtherInstanceId then
      .ok ⟨"", "", some [("instanceId", .str "other"), ("user", .str "u")]⟩
    else .error endOfInputError

/-- The request `PUT /v2/service_instances/abc` without parameters. -/
def putInstanceRequest : Request :=
  ⟨"PUT", "/v2/service_instances/abc", bodyWithoutParameters, []⟩

/-- The request `PUT /v2/service_instances/abc/service_bindings/b1` whose body
sets `instanceId` to another value. -/
def putBindingRequest : Request :=
  ⟨"PUT", "/v2/service_instances/abc/service_bindings/b1", bodyWithOtherInstanceId, []⟩

/-- The request `DELETE /v2/service_instances/abc/service_bindings/b1`. -/
def deleteBindingRequest : Request :=
  ⟨"DELETE", "/v2/service_instances/abc/service_bindings/b1", "", []⟩

/-- The request `GET /v2/service_instances/abc`. -/
def getInstanceRequest : Request := ⟨"GET", "/v2/service_instances/abc", "", []⟩

/-- The request `DELETE /v2/service_instances/abc`. -/
def deleteInstanceRequest : Request := ⟨"DELETE", "/v2/service_instances/abc", "", []⟩

/-- The request `DELETE /v2/service_instances/abc/service_bindings/b1` as the
handler sees it, with the path variables the router extracted. -/
def routedDeleteBindingRequest : Request :=
  { deleteBindingRequest with Vars := [("instance_id", "abc"), ("binding_id", "b1")] }

/-- The request `PUT /v2/service_instances/abc` with an empty body, which does
not decode. -/
def emptyBodyInstanceRequest : Request := ⟨"PUT", "/v2/service_instances/abc", "", []⟩

/-- The request `PUT /v2/service_instances/abc/service_bindings/b1` with an
empty body, which does not decode. -/
def emptyBodyBindingRequest : Request :=
  ⟨"PUT", "/v2/service_instances/abc/service_bindings/b1", "", []⟩

/-- The request `GET /v2/service_instances/abc` as the handler sees it. -/
def routedGetInstanceRequest : Request :=
  ⟨"GET", "/v2/service_instances/abc", "", [("instance_id", "abc")]⟩

/-- The request `PUT /v2/service_instances/abc` as the handler sees it. -/
def routedPutInstanceRequest : Request :=
  ⟨"PUT", "/v2/service_instances/abc", bodyWithoutParameters, [("instance_id", "abc")]⟩

/-- The request `DELETE /v2/service_instances/abc` as the handler sees it. -/
def routedDeleteInstanceRequest : Request :=
  ⟨"DELETE", "/v2/service_instances/abc", "", [("instance_id", "abc")]⟩

/-- The request `PUT /v2/service_instances/abc/service_bindings/b1` as the
handler sees it. -/
def routedPutBindingRequest : Request :=
  ⟨"PUT", "/v2/service_instances/abc/service_bindings/b1", bodyWithOtherInstanceId,
    [("instance_id", "abc"), ("binding_id", "b1")]⟩

/-- The request `GET /v2/catalog`. -/
def getCatalogRequest : Request := ⟨"GET", "/v2/catalog", "", []⟩

/-! ## Lemmas on maps -/

theorem mapGet_mapSet_self {β : Type} (m : GoMap β) (k : String) (v : β) :
    mapGet (mapSet m k v) k = some v := by
  induction m with
  | nil => simp [mapSet, mapGet, List.lookup]
  | cons p rest ih =>
    obtain ⟨k', v'⟩ := p
    by_cases h : k' = k
    · simp [mapSet, mapGet, List.lookup, h]
    · have hne : (k == k') = false := by
        simpa using fun e : k = k' => h e.symm
      simpa [mapSet, mapGet, List.lookup, h, hne] using ih

theorem mapGet_mapSet_other {β : Type} (m : GoMap β) (k j : String) (v : β) (hj : j ≠ k) :
    mapGet (mapSet m k v) j = mapGet m j := by
  induction m with
  | nil =>
    have hne : (j == k) = false := by simpa using hj
    simp [mapSet, mapGet, List.lookup, hne]
  | cons p rest ih =>
    obtain ⟨k', v'⟩ := p
    by_cases h : k' = k
    · subst h
      have hne : (j == k') = false := by simpa using hj
      simp [mapSet, mapGet, List.lookup, hne]
    · by_cases hjk : j = k'
      · subst hjk
        simp [mapSet, mapGet, List.lookup, h]
      · have hne : (j == k') = false := by simpa using hjk
        simpa [mapSet, mapGet, List.lookup, h, hne] using ih

/-! ## Reading back what was written -/

theorem parseString_cons (c : Char) (cs : List Char) : parseString (c :: cs) =
    if c = '"' then some ([], cs)
    else if c = '\\' then
      match cs with
      | [] => none
      | e :: rest =>
        if e = 'u' then
          match rest with
          | a :: b :: c2 :: d :: rest1 =>
            match hex4 a b c2 d with
            | some ch => (parseString rest1).map (fun p => (ch :: p.1, p.2))
            | none => none
          | _ => none
        else
          match unescape e with
          | some ch => (parseString rest).map (fun p => (ch :: p.1, p.2))
          | none => none
    else if c.toNat < 32 then none
    else (parseString cs).map (fun p => (c :: p.1, p.2)) := by
  rw [parseString.eq_def]

theorem hexVal_hexDigit : ∀ k, k < 16 → hexVal (hexDigit k) = some k := by decide

theorem hex4_low (c : Char) (h : c.toNat < 128) :
    hex4 '0' '0' (hexDigit (c.toNat / 16)) (hexDigit (c.toNat % 16)) = some c := by
  have h0 : hexVal '0' = some 0 := by decide
  have h1 := hexVal_hexDigit (c.toNat / 16) (by omega)
  have h2 := hexVal_hexDigit (c.toNat % 16) (by omega)
  simp only [hex4, h0, h1, h2]
  have e : ((0 * 16 + 0) * 16 + c.toNat / 16) * 16 + c.toNat % 16 = c.toNat := by omega
  rw [e]
  have : ¬ (0xD800 ≤ c.toNat ∧ c.toNat ≤ 0xDFFF) := by omega
  simp [this]

theorem parseString_letter (e ch : Char) (tail r rest : List Char) (hne : e ≠ 'u')
    (hun : unescape e = some ch) (h : parseString tail = some (r, rest)) :
    parseString ('\\' :: e :: tail) = some (ch :: r, rest) := by
  rw [parseString_cons, if_neg (by decide), if_pos rfl]
  simp only []
  rw [if_neg hne]
  simp only [hun, h, Option.map]

theorem parseString_hex (a b c d ch : Char) (tail r rest : List Char)
    (hex : hex4 a b c d = some ch) (h : parseString tail = some (r, rest)) :
    parseString ('\\' :: 'u' :: a :: b :: c :: d :: tail) = some (ch :: r, rest) := by
  rw [parseString_cons, if_neg (by decide), if_pos rfl]
  simp only [if_true, hex, h, Option.map]

theorem parseString_plain (c : Char) (tail r rest : List Char) (h1 : c ≠ '"') (h2 : c ≠ '\\')
    (h3 : ¬ c.toNat < 32) (h : parseString tail = some (r, rest)) :
    parseString (c :: tail) = some (c :: r, rest) := by
  rw [parseString_cons, if_neg h1, if_neg h2, if_neg h3]
  simp only [h, Option.map]

theorem parseString_escapeChar (c : Char) (tail r rest : List Char)
    (h : parseString tail = some (r, rest)) :
    parseString (escapeChar c ++ tail) = some (c :: r, rest) := by
  by_cases h1 : c = '"'
  · have e : escapeChar c = ['\\', '"'] := by simp only [escapeChar, if_pos h1]
    rw [e, h1]
    exact parseString_letter _ _ _ _ _ (by decide) (by decide) h
  by_cases h2 : c = '\\'
  · have e : escapeChar c = ['\\', '\\'] := by simp only [escapeChar, if_neg h1, if_pos h2]
    rw [e, h2]
    exact parseString_letter _ _ _ _ _ (by decide) (by decide) h
  by_cases h3 : c.toNat = 8
  · have e : escapeChar c = ['\\', 'b'] := by
      simp only [escapeChar, if_neg h1, if_neg h2, if_pos h3]
    have hc : c = Char.ofNat 8 := by rw [← h3, Char.ofNat_toNat]
    rw [e, hc]
    exact parseString_letter _ _ _ _ _ (by decide) (by decide) h
  by_cases h4 : c.toNat = 12
  · have e : escapeChar c = ['\\', 'f'] := by
      simp only [escapeChar, if_neg h1, if_neg h2, if_neg h3, if_pos h4]
    have hc : c = Char.ofNat 12 := by rw [← h4, Char.ofNat_toNat]
    rw [e, hc]
    exact parseString_letter _ _ _ _ _ (by decide) (by decide) h
  by_cases h5 : c = '\n'
  · have e : escapeChar c = ['\\', 'n'] := by
      simp only [escapeChar, if_neg h1, if_neg h2, if_neg h3, if_neg h4, if_pos h5]
    rw [e, h5]
    exact parseString_letter _ _ _ _ _ (by decide) (by decide) h
  by_cases h6 : c = '\r'
  · have e : escapeChar c = ['\\', 'r'] := by
      simp only [escapeChar, if_neg h1, if_neg h2, if_neg h3, if_neg h4, if_neg h5, if_pos h6]
    rw [e, h6]
    exact parseString_letter _ _ _ _ _ (by decide) (by decide) h
  by_cases h7 : c = '\t'
  · have e : escapeChar c = ['\\', 't'] := by
      simp only [escapeChar, if_neg h1, if_neg h2, if_neg h3, if_neg h4, if_neg h5, if_neg h6,
        if_pos h7]
    rw [e, h7]
    exact parseString_letter _ _ _ _ _ (by decide) (by decide) h
  by_cases h8 : c.toNat < 32 ∨ c = '<' ∨ c = '>' ∨ c = '&'
  · have e : escapeChar c
        = ['\\', 'u', '0', '0', hexDigit (c.toNat / 16), hexDigit (c.toNat % 16)] := by
      simp only [escapeChar, if_neg h1, if_neg h2, if_neg h3, if_neg h4, if_neg h5, if_neg h6,
        if_neg h7, if_pos h8]
    have hlow : c.toNat < 128 := by
      rcases h8 with h8 | h8 | h8 | h8
      · omega
      · rw [h8]; decide
      · rw [h8]; decide
      · rw [h8]; decide
    rw [e]
    exact parseString_hex _ _ _ _ _ _ _ _ (hex4_low c hlow) h
  by_cases h9 : c.toNat = 0x2028
  · have e : escapeChar c = ['\\', 'u', '2', '0', '2', '8'] := by
      simp only [escapeChar, if_neg h1, if_neg h2, if_neg h3, if_neg h4, if_neg h5, if_neg h6,
        if_neg h7, if_neg h8, if_pos h9]
    have hc : c = Char.ofNat 0x2028 := by rw [← h9, Char.ofNat_toNat]
    rw [e, hc]
    exact parseString_hex _ _ _ _ _ _ _ _ (by decide) h
  by_cases h10 : c.toNat = 0x2029
  · have e : escapeChar c = ['\\', 'u', '2', '0', '2', '9'] := by
      simp only [escapeChar, if_neg h1, if_neg h2, if_neg h3, if_neg h4, if_neg h5, if_neg h6,
        if_neg h7, if_neg h8, if_neg h9, if_pos h10]
    have hc : c = Char.ofNat 0x2029 := by rw [← h10, Char.ofNat_toNat]
    rw [e, hc]
    exact parseString_hex _ _ _ _ _ _ _ _ (by decide) h
  · have e : escapeChar c = [c] := by
      simp only [escapeChar, if_neg h1, if_neg h2, if_neg h3, if_neg h4, if_neg h5, if_neg h6,
        if_neg h7, if_neg h8, if_neg h9, if_neg h10]
    rw [e]
    exact parseString_plain c _ _ _ h1 h2 (fun hh => h8 (Or.inl hh)) h

theorem parseString_quote (s rest : List Char) :
    parseString (s.flatMap escapeChar ++ '"' :: rest) = some (s, rest) := by
  induction s with
  | nil => simp [parseString_cons]
  | cons c cs ih =>
    rw [List.flatMap_cons, List.append_assoc]
    exact parseString_escapeChar c _ _ _ ih


theorem takeWhile_numChar (lit rest : List Char) (hall : lit.all numChar = true)
    (ht : terminated rest) :
    (lit ++ rest).takeWhile numChar = lit ∧ (lit ++ rest).dropWhile numChar = rest := by
  induction lit with
  | nil =>
    cases rest with
    | nil => simp
    | cons c cs =>
      have := ht c rfl
      simp [List.takeWhile, List.dropWhile, this]
  | cons c cs ih =>
    simp only [List.all_cons, Bool.and_eq_true] at hall
    have := ih hall.2
    simp [List.takeWhile, List.dropWhile, hall.1, this.1, this.2]

theorem parseValue_succ (fuel : Nat) (c : Char) (cs : List Char) :
    parseValue (fuel + 1) (c :: cs) =
    if c = 'n' then (expect "ull".data cs).map (fun r => (JSON.null, r))
    else if c = 't' then (expect "rue".data cs).map (fun r => (JSON.bool true, r))
    else if c = 'f' then (expect "alse".data cs).map (fun r => (JSON.bool false, r))
    else if c = '"' then (parseString cs).map (fun p => (JSON.str (String.mk p.1), p.2))
    else if c = '[' then
      if cs.head? = some ']' then some (JSON.arr [], cs.tail)
      else (parseElems fuel cs).map (fun p => (JSON.arr p.1, p.2))
    else if c = '\x7b' then
      if cs.head? = some '\x7d' then some (JSON.obj [], cs.tail)
      else (parseMembers fuel cs).map (fun p => (JSON.obj p.1, p.2))
    else
      let lit := (c :: cs).takeWhile numChar
      if validNumber lit then some (JSON.num (String.mk lit), (c :: cs).dropWhile numChar)
      else none := by
  rw [parseValue]

theorem parseElems_succ (fuel : Nat) (cs : List Char) :
    parseElems (fuel + 1) cs =
    match parseValue fuel cs with
    | some (v, ',' :: rest) => (parseElems fuel rest).map (fun p => (v :: p.1, p.2))
    | some (v, ']' :: rest) => some ([v], rest)
    | _ => none := by
  rw [parseElems]

theorem parseMembers_succ (fuel : Nat) (cs1 : List Char) :
    parseMembers (fuel + 1) ('"' :: cs1) =
      match parseString cs1 with
      | some (k, ':' :: cs2) =>
        match parseValue fuel cs2 with
        | some (v, ',' :: rest) =>
          (parseMembers fuel rest).map (fun p => ((String.mk k, v) :: p.1, p.2))
        | some (v, '\x7d' :: rest) => some ([(String.mk k, v)], rest)
        | _ => none
      | _ => none := by
  rw [parseMembers]


theorem validNumber_ne_nil (l : List Char) (h : validNumber l = true) : l ≠ [] := by
  intro e
  subst e
  simp [validNumber, numberGrammar] at h

theorem numChar_not_opener (c : Char) (h : numChar c = true) :
    c ≠ 'n' ∧ c ≠ 't' ∧ c ≠ 'f' ∧ c ≠ '"' ∧ c ≠ '[' ∧ c ≠ '\x7b' ∧ c ≠ ']' ∧ c ≠ '\x7d' := by
  refine ⟨?_, ?_, ?_, ?_, ?_, ?_, ?_, ?_⟩ <;> (intro e; subst e; revert h; decide)

theorem parseValue_num (fuel : Nat) (literal : String) (rest : List Char)
    (hv : validNumber literal.data = true) (ht : terminated rest) :
    parseValue (fuel + 1) (literal.data ++ rest) = some (JSON.num literal, rest) := by
  have hall : literal.data.all numChar = true := by
    simp only [validNumber, Bool.and_eq_true] at hv
    exact hv.1
  have htw := takeWhile_numChar literal.data rest hall ht
  cases hd : literal.data with
  | nil => exact absurd hd (validNumber_ne_nil _ hv)
  | cons c tl =>
    have hc : numChar c = true := by
      rw [hd] at hall
      simp only [List.all_cons, Bool.and_eq_true] at hall
      exact hall.1
    obtain ⟨n1, n2, n3, n4, n5, n6, -, -⟩ := numChar_not_opener c hc
    rw [hd] at htw
    rw [List.cons_append, parseValue_succ, if_neg n1, if_neg n2, if_neg n3, if_neg n4, if_neg n5,
      if_neg n6]
    rw [List.cons_append] at htw
    simp only [htw.1, htw.2]
    rw [← hd, if_pos hv]

theorem parseValue_str (fuel : Nat) (s : String) (rest : List Char) :
    parseValue (fuel + 1) (quote s ++ rest) = some (JSON.str s, rest) := by
  have h := parseString_quote s.data rest
  simp only [quote, List.cons_append, List.append_assoc, List.singleton_append,
    List.nil_append]
  rw [parseValue_succ, if_neg (by decide), if_neg (by decide), if_neg (by decide), if_pos rfl, h]
  rfl

theorem parseValue_null (fuel : Nat) (rest : List Char) :
    parseValue (fuel + 1) ("null".data ++ rest) = some (JSON.null, rest) := by
  show parseValue (fuel + 1) ('n' :: ("ull".data ++ rest)) = _
  rw [parseValue_succ, if_pos rfl]
  simp [expect]

theorem parseValue_true (fuel : Nat) (rest : List Char) :
    parseValue (fuel + 1) ("true".data ++ rest) = some (JSON.bool true, rest) := by
  show parseValue (fuel + 1) ('t' :: ("rue".data ++ rest)) = _
  rw [parseValue_succ, if_neg (by decide), if_pos rfl]
  simp [expect]

theorem parseValue_false (fuel : Nat) (rest : List Char) :
    parseValue (fuel + 1) ("false".data ++ rest) = some (JSON.bool false, rest) := by
  show parseValue (fuel + 1) ('f' :: ("alse".data ++ rest)) = _
  rw [parseValue_succ, if_neg (by decide), if_neg (by decide), if_pos rfl]
  simp [expect]

/-- The text of a well-formed document starts with a character that closes
neither an array nor an object. -/
theorem chars_head (j : JSON) (hwf : j.wellFormed = true) :
    ∃ c tl, j.chars = c :: tl ∧ c ≠ ']' ∧ c ≠ '\x7d' := by
  cases j with
  | null => exact ⟨'n', _, rfl, by decide, by decide⟩
  | bool b => cases b <;> exact ⟨_, _, rfl, by decide, by decide⟩
  | num literal =>
    have hv : validNumber literal.data = true := by simpa [JSON.wellFormed] using hwf
    have hall : literal.data.all numChar = true := by
      simp only [validNumber, Bool.and_eq_true] at hv
      exact hv.1
    cases hd : literal.data with
    | nil => exact absurd hd (validNumber_ne_nil _ hv)
    | cons c tl =>
      rw [hd] at hall
      simp only [List.all_cons, Bool.and_eq_true] at hall
      obtain ⟨-, -, -, -, -, -, n7, n8⟩ := numChar_not_opener c hall.1
      exact ⟨c, tl, by simp [JSON.chars, hd], n7, n8⟩
  | str s => exact ⟨'"', _, rfl, by decide, by decide⟩
  | arr xs => exact ⟨'[', _, by rw [JSON.chars], by decide, by decide⟩
  | obj kvs => exact ⟨'\x7b', _, by rw [JSON.chars], by decide, by decide⟩


theorem terminated_comma (rest : List Char) : terminated (',' :: rest) := by
  intro c h
  simp only [List.head?_cons, Option.some.injEq] at h
  subst h
  decide

theorem terminated_bracket (rest : List Char) : terminated (']' :: rest) := by
  intro c h
  simp only [List.head?_cons, Option.some.injEq] at h
  subst h
  decide

theorem terminated_brace (rest : List Char) : terminated ('\x7d' :: rest) := by
  intro c h
  simp only [List.head?_cons, Option.some.injEq] at h
  subst h
  decide

theorem chars_arr_length (xs : List JSON) :
    (JSON.arr xs).chars.length = (commaSep (JSON.charsList xs)).length + 2 := by
  rw [JSON.chars]; simp

theorem chars_obj_length (kvs : List (String × JSON)) :
    (JSON.obj kvs).chars.length = (commaSep (JSON.charsFields kvs)).length + 2 := by
  rw [JSON.chars]; simp

theorem commaSep_charsList_one (x : JSON) :
    commaSep (JSON.charsList [x]) = x.chars := by
  simp only [JSON.charsList, commaSep]

theorem commaSep_charsList_two (x y : JSON) (ys : List JSON) :
    commaSep (JSON.charsList (x :: y :: ys))
      = x.chars ++ ',' :: commaSep (JSON.charsList (y :: ys)) := by
  simp only [JSON.charsList, commaSep]

theorem commaSep_charsFields_one (k : String) (v : JSON) :
    commaSep (JSON.charsFields [(k, v)])
      = '"' :: (k.data.flatMap escapeChar ++ '"' :: ':' :: v.chars) := by
  simp only [JSON.charsFields, commaSep, quote, List.cons_append, List.append_assoc,
    List.nil_append]

theorem commaSep_charsFields_two (k : String) (v : JSON) (kv : String × JSON)
    (kvs : List (String × JSON)) :
    commaSep (JSON.charsFields ((k, v) :: kv :: kvs))
      = '"' :: (k.data.flatMap escapeChar
          ++ '"' :: ':' :: (v.chars ++ ',' :: commaSep (JSON.charsFields (kv :: kvs)))) := by
  obtain ⟨k2, v2⟩ := kv
  simp only [JSON.charsFields, commaSep, quote, List.cons_append, List.append_assoc,
    List.nil_append]

mutual
theorem parseValue_chars : ∀ (j : JSON), j.wellFormed = true → ∀ (fuel : Nat) (rest : List Char),
    j.chars.length ≤ fuel → terminated rest →
    parseValue fuel (j.chars ++ rest) = some (j, rest)
  | .null, _, fuel, rest, hf, _ => by
    obtain ⟨f, rfl⟩ : ∃ f, fuel = f + 1 := ⟨fuel - 1, by simp [JSON.chars] at hf; omega⟩
    exact parseValue_null f rest
  | .bool true, _, fuel, rest, hf, _ => by
    obtain ⟨f, rfl⟩ : ∃ f, fuel = f + 1 := ⟨fuel - 1, by simp [JSON.chars] at hf; omega⟩
    exact parseValue_true f rest
  | .bool false, _, fuel, rest, hf, _ => by
    obtain ⟨f, rfl⟩ : ∃ f, fuel = f + 1 := ⟨fuel - 1, by simp [JSON.chars] at hf; omega⟩
    exact parseValue_false f rest
  | .num literal, hwf, fuel, rest, hf, ht => by
    have hv : validNumber literal.data = true := by simpa [JSON.wellFormed] using hwf
    have hne := validNumber_ne_nil _ hv
    have hlen : 0 < literal.data.length := List.length_pos.mpr hne
    rw [JSON.chars] at hf
    obtain ⟨f, rfl⟩ : ∃ f, fuel = f + 1 := ⟨fuel - 1, by omega⟩
    rw [JSON.chars]
    exact parseValue_num f literal rest hv ht
  | .str s, _, fuel, rest, hf, _ => by
    obtain ⟨f, rfl⟩ : ∃ f, fuel = f + 1 :=
      ⟨fuel - 1, by simp [JSON.chars, quote] at hf; omega⟩
    simpa [JSON.chars] using parseValue_str f s rest
  | .arr xs, hwf, fuel, rest, hf, _ => by
    rw [chars_arr_length] at hf
    obtain ⟨f, rfl⟩ : ∃ f, fuel = f + 1 := ⟨fuel - 1, by omega⟩
    have hwl : JSON.wellFormedList xs = true := by simpa [JSON.wellFormed] using hwf
    rw [JSON.chars]
    simp only [List.cons_append, List.append_assoc, List.singleton_append, List.nil_append]
    rw [parseValue_succ, if_neg (by decide), if_neg (by decide), if_neg (by decide),
      if_neg (by decide), if_pos rfl]
    cases xs with
    | nil => simp [JSON.charsList, commaSep]
    | cons x xs1 =>
      have hx : JSON.wellFormed x = true := by
        simp only [JSON.wellFormedList, Bool.and_eq_true] at hwl
        exact hwl.1
      obtain ⟨c, tl, hc, hc1, -⟩ := chars_head x hx
      have hhead : (commaSep (JSON.charsList (x :: xs1)) ++ ']' :: rest).head? ≠ some ']' := by
        cases xs1 with
        | nil => simp [JSON.charsList, commaSep, hc, hc1]
        | cons y ys => simp [JSON.charsList, commaSep, hc, hc1]
      rw [if_neg hhead,
        parseElems_chars (x :: xs1) (by simp) hwl f rest (by omega)]
      rfl
  | .obj kvs, hwf, fuel, rest, hf, _ => by
    rw [chars_obj_length] at hf
    obtain ⟨f, rfl⟩ : ∃ f, fuel = f + 1 := ⟨fuel - 1, by omega⟩
    have hwl : JSON.wellFormedFields kvs = true := by simpa [JSON.wellFormed] using hwf
    rw [JSON.chars]
    simp only [List.cons_append, List.append_assoc, List.singleton_append, List.nil_append]
    rw [parseValue_succ, if_neg (by decide), if_neg (by decide), if_neg (by decide),
      if_neg (by decide), if_neg (by decide), if_pos rfl]
    cases kvs with
    | nil => simp [JSON.charsFields, commaSep]
    | cons kv kvs1 =>
      have hhead : (commaSep (JSON.charsFields (kv :: kvs1)) ++ '\x7d' :: rest).head?
          ≠ some '\x7d' := by
        obtain ⟨k, v⟩ := kv
        cases kvs1 with
        | nil => simp [JSON.charsFields, commaSep, quote]
        | cons y ys => simp [JSON.charsFields, commaSep, quote]
      rw [if_neg hhead,
        parseMembers_chars (kv :: kvs1) (by simp) hwl f rest (by omega)]
      rfl
theorem parseElems_chars : ∀ (l : List JSON), l ≠ [] → JSON.wellFormedList l = true →
    ∀ (fuel : Nat) (rest : List Char), (commaSep (JSON.charsList l)).length + 1 ≤ fuel →
    parseElems fuel (commaSep (JSON.charsList l) ++ ']' :: rest) = some (l, rest)
  | [], hne, _, _, _, _ => absurd rfl hne
  | [x], _, hwl, fuel, rest, hf => by
    obtain ⟨f, rfl⟩ : ∃ f, fuel = f + 1 := ⟨fuel - 1, by omega⟩
    have hx : JSON.wellFormed x = true := by
      simp only [JSON.wellFormedList, Bool.and_eq_true] at hwl
      exact hwl.1
    rw [commaSep_charsList_one] at hf ⊢
    rw [parseElems_succ, parseValue_chars x hx f (']' :: rest) (by omega)
      (terminated_bracket rest)]
    rfl
  | x :: y :: ys, _, hwl, fuel, rest, hf => by
    obtain ⟨f, rfl⟩ : ∃ f, fuel = f + 1 := ⟨fuel - 1, by omega⟩
    have hx : JSON.wellFormed x = true ∧ JSON.wellFormedList (y :: ys) = true := by
      rw [JSON.wellFormedList, Bool.and_eq_true] at hwl
      exact hwl
    rw [commaSep_charsList_two] at hf ⊢
    simp only [List.length_append, List.length_cons] at hf
    have hrec := parseElems_chars (y :: ys) (by simp) hx.2 f rest (by omega)
    simp only [List.append_assoc, List.cons_append]
    rw [parseElems_succ, parseValue_chars x hx.1 f _ (by omega) (terminated_comma _)]
    simp only [hrec, Option.map]
theorem parseMembers_chars : ∀ (l : List (String × JSON)), l ≠ [] →
    JSON.wellFormedFields l = true →
    ∀ (fuel : Nat) (rest : List Char), (commaSep (JSON.charsFields l)).length + 1 ≤ fuel →
    parseMembers fuel (commaSep (JSON.charsFields l) ++ '\x7d' :: rest) = some (l, rest)
  | [], hne, _, _, _, _ => absurd rfl hne
  | [(k, v)], _, hwl, fuel, rest, hf => by
    obtain ⟨f, rfl⟩ : ∃ f, fuel = f + 1 := ⟨fuel - 1, by omega⟩
    have hv : JSON.wellFormed v = true := by
      simp only [JSON.wellFormedFields, Bool.and_eq_true] at hwl
      exact hwl.1
    rw [commaSep_charsFields_one] at hf ⊢
    simp only [List.length_append, List.length_cons] at hf
    simp only [List.append_assoc, List.cons_append]
    rw [parseMembers_succ, parseString_quote]
    simp only []
    rw [parseValue_chars v hv f ('\x7d' :: rest) (by omega) (terminated_brace rest)]
    rfl
  | (k, v) :: kv :: kvs, _, hwl, fuel, rest, hf => by
    obtain ⟨f, rfl⟩ : ∃ f, fuel = f + 1 := ⟨fuel - 1, by omega⟩
    have hv : JSON.wellFormed v = true ∧ JSON.wellFormedFields (kv :: kvs) = true := by
      rw [JSON.wellFormedFields, Bool.and_eq_true] at hwl
      exact hwl
    rw [commaSep_charsFields_two] at hf ⊢
    simp only [List.length_append, List.length_cons] at hf
    have hrec := parseMembers_chars (kv :: kvs) (by simp) hv.2 f rest (by omega)
    simp only [List.append_assoc, List.cons_append]
    rw [parseMembers_succ, parseString_quote]
    simp only []
    rw [parseValue_chars v hv.1 f _ (by omega) (terminated_comma _)]
    simp only [hrec, Option.map]
end

/-- Reading back the text of a well-formed document gives the document. -/
theorem parse_render (j : JSON) (hwf : j.wellFormed = true) : JSON.parse j.render = some j := by
  have h := parseValue_chars j hwf (j.chars.length + 1) [] (by omega)
    (by intro c hc; simp at hc)
  rw [List.append_nil] at h
  simp only [JSON.parse, JSON.render, h]

/-- Two well-formed documents with the same text are the same document. -/
theorem render_injective (j k : JSON) (hj : j.wellFormed = true) (hk : k.wellFormed = true)
    (h : j.render = k.render) : j = k := by
  have h1 := parse_render j hj
  rw [h, parse_render k hk] at h1
  exact (Option.some.inj h1).symm

/-! ## The handlers, by the outcome of the broker operation -/

theorem catalog_eq {σ : Type} (s : server σ) (x : Exec σ) (r : Request) :
    s.catalog x r =
      match (s.broker.Catalog x.st).1.2 with
      | none => (x.after .Catalog s.broker.Catalog).WriteResponse StatusOK
          (.catalog (s.broker.Catalog x.st).1.1)
      | some err => (x.after .Catalog s.broker.Catalog).WriteResponse StatusBadRequest
          (.error err) := by
  simp only [server.catalog, Exec.invoke, Exec.after]
  split <;> rename_i heq <;> simp only [Prod.mk.injEq] at heq <;>
    obtain ⟨hres, rfl⟩ := heq <;> simp [hres]

theorem getServiceInstance_eq {σ : Type} (s : server σ) (x : Exec σ) (r : Request) :
    s.getServiceInstance x r =
      match (s.broker.GetServiceInstance (r.Var "instance_id") x.st).1.2 with
      | none =>
        (x.after (.GetServiceInstance (r.Var "instance_id"))
          (s.broker.GetServiceInstance (r.Var "instance_id"))).WriteResponse StatusOK
          (.string (s.broker.GetServiceInstance (r.Var "instance_id") x.st).1.1)
      | some err =>
        (x.after (.GetServiceInstance (r.Var "instance_id"))
          (s.broker.GetServiceInstance (r.Var "instance_id"))).WriteResponse StatusBadRequest
          (.error err) := by
  simp only [server.getServiceInstance, Exec.invoke, Exec.after]
  split <;> rename_i heq <;> simp only [Prod.mk.injEq] at heq <;>
    obtain ⟨hres, rfl⟩ := heq <;> simp [hres]

theorem createServiceInstance_eq {σ : Type} (u : Util) (s : server σ) (x : Exec σ)
    (r : Request) :
    s.createServiceInstance u x r =
      match u.BodyToCreateServiceInstanceRequest r.Body with
      | .error err => x.WriteResponse StatusBadRequest (.error err)
      | .ok req =>
        match (s.broker.CreateServiceInstance (r.Var "instance_id") req.defaultParameters
            x.st).1.2 with
        | none =>
          (x.after (.CreateServiceInstance (r.Var "instance_id") req.defaultParameters)
            (s.broker.CreateServiceInstance (r.Var "instance_id")
              req.defaultParameters)).WriteResponse StatusCreated
            (.createServiceInstanceResponse
              (s.broker.CreateServiceInstance (r.Var "instance_id") req.defaultParameters
                x.st).1.1)
        | some err =>
          (x.after (.CreateServiceInstance (r.Var "instance_id") req.defaultParameters)
            (s.broker.CreateServiceInstance (r.Var "instance_id")
              req.defaultParameters)).WriteResponse StatusBadRequest (.error err) := by
  simp only [server.createServiceInstance, Exec.invoke, Exec.after]
  split
  · rfl
  · split <;> rename_i heq <;> simp only [Prod.mk.injEq] at heq <;>
      obtain ⟨hres, rfl⟩ := heq <;> simp [hres]

theorem removeServiceInstance_eq {σ : Type} (s : server σ) (x : Exec σ) (r : Request) :
    s.removeServiceInstance x r =
      match (s.broker.RemoveServiceInstance (r.Var "instance_id") x.st).1.2 with
      | none =>
        (x.after (.RemoveServiceInstance (r.Var "instance_id"))
          (s.broker.RemoveServiceInstance (r.Var "instance_id"))).WriteResponse StatusOK
          (.deleteServiceInstanceResponse
            (s.broker.RemoveServiceInstance (r.Var "instance_id") x.st).1.1)
      | some err =>
        (x.after (.RemoveServiceInstance (r.Var "instance_id"))
          (s.broker.RemoveServiceInstance (r.Var "instance_id"))).WriteResponse
          StatusBadRequest (.error err) := by
  simp only [server.removeServiceInstance, Exec.invoke, Exec.after]
  split <;> rename_i heq <;> simp only [Prod.mk.injEq] at heq <;>
    obtain ⟨hres, rfl⟩ := heq <;> simp [hres]

theorem bind_eq {σ : Type} (u : Util) (s : server σ) (x : Exec σ) (r : Request) :
    s.bind u x r =
      match u.BodyToBindingRequest r.Body with
      | .error err => x.WriteResponse StatusBadRequest (.error err)
      | .ok req =>
        match (s.broker.Bind (r.Var "instance_id") (r.Var "binding_id")
            (req.forwarded (r.Var "instance_id")) x.st).1.2 with
        | none =>
          (x.after (.Bind (r.Var "instance_id") (r.Var "binding_id")
              (req.forwarded (r.Var "instance_id")))
            (s.broker.Bind (r.Var "instance_id") (r.Var "binding_id")
              (req.forwarded (r.Var "instance_id")))).WriteResponse StatusOK
            (.createServiceBindingResponse
              (s.broker.Bind (r.Var "instance_id") (r.Var "binding_id")
                (req.forwarded (r.Var "instance_id")) x.st).1.1)
        | some err =>
          (x.after (.Bind (r.Var "instance_id") (r.Var "binding_id")
              (req.forwarded (r.Var "instance_id")))
            (s.broker.Bind (r.Var "instance_id") (r.Var "binding_id")
              (req.forwarded (r.Var "instance_id")))).WriteResponse StatusBadRequest
            (.error err) := by
  simp only [server.bind, Exec.invoke, Exec.after, BindingRequest.forwarded]
  split
  · rfl
  · split <;> rename_i heq <;> simp only [Prod.mk.injEq] at heq <;>
      obtain ⟨hres, rfl⟩ := heq <;> simp [hres]

theorem unBind_eq {σ : Type} (s : server σ) (x : Exec σ) (r : Request) :
    s.unBind x r =
      match (s.broker.UnBind (r.Var "instance_id") (r.Var "binding_id") x.st).1 with
      | none =>
        { x.after (.UnBind (r.Var "instance_id") (r.Var "binding_id"))
            (s.broker.UnBind (r.Var "instance_id") (r.Var "binding_id")) with
          w := ((x.w.WriteHeader StatusOK).HeaderSet "Content-Type"
                  "application/json").Write "\x7b\x7d" }
      | some err =>
        (x.after (.UnBind (r.Var "instance_id") (r.Var "binding_id"))
          (s.broker.UnBind (r.Var "instance_id") (r.Var "binding_id"))).WriteResponse
          StatusBadRequest (.error err) := by
  simp only [server.unBind, Exec.invoke, Exec.after]
  split <;> rename_i heq <;> simp only [Prod.mk.injEq] at heq <;>
    obtain ⟨hres, rfl⟩ := heq <;> simp [hres]

/-- What `util.WriteResponse` leaves on a fresh writer. -/
theorem WriteResponse_fresh (code : Nat) (object : Object) :
    WriteResponse ResponseWriter.fresh code object =
      { header := [("Content-Type", "application/json")], wroteHeader := true, status := code,
        sentHeader := [("Content-Type", "application/json")], body := Marshal object } := by
  simp [WriteResponse, ResponseWriter.fresh, ResponseWriter.HeaderSet,
    ResponseWriter.WriteHeader, ResponseWriter.Write, mapSet]

/-! ## Lemmas on routing -/

theorem splitSlash_ne_nil (l : List Char) : splitSlash l ≠ [] := by
  induction l with
  | nil => simp [splitSlash]
  | cons c cs ih =>
    unfold splitSlash
    split
    · simp
    · split <;> simp

theorem splitSlash_token (l : List Char) (h : '/' ∉ l) : splitSlash l = [l] := by
  induction l with
  | nil => rfl
  | cons c cs ih =>
    have hc : c ≠ '/' := fun e => h (by simp [e])
    have hcs : '/' ∉ cs := fun e => h (List.mem_cons_of_mem _ e)
    simp [splitSlash, hc, ih hcs]

theorem splitSlash_token_slash (l rest : List Char) (h : '/' ∉ l) :
    splitSlash (l ++ '/' :: rest) = l :: splitSlash rest := by
  induction l with
  | nil => simp [splitSlash]
  | cons c cs ih =>
    have hc : c ≠ '/' := fun e => h (by simp [e])
    have hcs : '/' ∉ cs := fun e => h (List.mem_cons_of_mem _ e)
    simp [splitSlash, hc, ih hcs]

theorem segments_instance (id : String) (h : pathToken id) :
    segments ("/v2/service_instances/" ++ id) = ["", "v2", "service_instances", id] := by
  have h1 : splitSlash ("/v2/service_instances/" ++ id).data
      = [] :: "v2".data :: "service_instances".data :: splitSlash id.data := by
    rw [String.data_append]
    show splitSlash ([] ++ '/' :: ("v2".data ++ '/' :: ("service_instances".data ++ '/' :: id.data))) = _
    rw [splitSlash_token_slash _ _ (by decide), splitSlash_token_slash _ _ (by decide),
      splitSlash_token_slash _ _ (by decide)]
  rw [segments, h1, splitSlash_token _ h.2.1]
  rfl

theorem segments_binding (iid bid : String) (hi : pathToken iid) (hb : pathToken bid) :
    segments ("/v2/service_instances/" ++ iid ++ "/service_bindings/" ++ bid)
      = ["", "v2", "service_instances", iid, "service_bindings", bid] := by
  have h1 : splitSlash ("/v2/service_instances/" ++ iid ++ "/service_bindings/" ++ bid).data
      = [] :: "v2".data :: "service_instances".data :: iid.data :: "service_bindings".data
          :: splitSlash bid.data := by
    rw [String.data_append, String.data_append, String.data_append]
    show splitSlash ((([] ++ '/' :: ("v2".data ++ '/' :: ("service_instances".data ++ ['/'])))
        ++ iid.data) ++ ('/' :: ("service_bindings".data ++ ['/']))  ++ bid.data) = _
    simp only [List.append_assoc, List.cons_append, List.nil_append]
    have h2 : splitSlash (iid.data ++ '/' :: ("service_bindings".data ++ '/' :: bid.data))
        = iid.data :: "service_bindings".data :: splitSlash bid.data := by
      rw [splitSlash_token_slash _ _ hi.2.1, splitSlash_token_slash _ _ (by decide)]
    simp only [List.cons_append, List.nil_append] at h2
    simp [splitSlash, h2]
  rw [segments, h1, splitSlash_token _ hb.2.1]
  rfl

theorem template_catalog :
    (segments "/v2/catalog").map Seg.parse = [.lit "", .lit "v2", .lit "catalog"] := by
  decide

theorem template_instance :
    (segments "/v2/service_instances/\x7binstance_id\x7d").map Seg.parse
      = [.lit "", .lit "v2", .lit "service_instances", .var "instance_id"] := by
  decide

theorem template_binding :
    (segments
        "/v2/service_instances/\x7binstance_id\x7d/service_bindings/\x7bbinding_id\x7d").map
        Seg.parse
      = [.lit "", .lit "v2", .lit "service_instances", .var "instance_id",
          .lit "service_bindings", .var "binding_id"] := by
  decide

theorem segments_catalog : segments "/v2/catalog" = ["", "v2", "catalog"] := by decide

theorem findRoute_catalog (r : Request) (hm : r.Method = "GET") (hp : r.Path = "/v2/catalog") :
    findRoute routes r = some (.catalog, []) := by
  simp [findRoute, routes, Route.matches, hm, hp, template_catalog, segments_catalog, matchSegs]

theorem findRoute_getServiceInstance (r : Request) (id : String) (hm : r.Method = "GET")
    (hp : r.Path = "/v2/service_instances/" ++ id) (hid : pathToken id) :
    findRoute routes r = some (.getServiceInstance, [("instance_id", id)]) := by
  simp [findRoute, routes, Route.matches, hm, hp, template_catalog, template_instance,
    segments_instance id hid, matchSegs, hid.1]

theorem findRoute_createServiceInstance (r : Request) (id : String) (hm : r.Method = "PUT")
    (hp : r.Path = "/v2/service_instances/" ++ id) (hid : pathToken id) :
    findRoute routes r = some (.createServiceInstance, [("instance_id", id)]) := by
  simp [findRoute, routes, Route.matches, hm, hp, template_catalog, template_instance,
    segments_instance id hid, matchSegs, hid.1]

theorem findRoute_removeServiceInstance (r : Request) (id : String) (hm : r.Method = "DELETE")
    (hp : r.Path = "/v2/service_instances/" ++ id) (hid : pathToken id) :
    findRoute routes r = some (.removeServiceInstance, [("instance_id", id)]) := by
  simp [findRoute, routes, Route.matches, hm, hp, template_catalog, template_instance,
    segments_instance id hid, matchSegs, hid.1]

theorem findRoute_bind (r : Request) (iid bid : String) (hm : r.Method = "PUT")
    (hp : r.Path = "/v2/service_instances/" ++ iid ++ "/service_bindings/" ++ bid)
    (hi : pathToken iid) (hb : pathToken bid) :
    findRoute routes r = some (.bind, [("instance_id", iid), ("binding_id", bid)]) := by
  simp [findRoute, routes, Route.matches, hm, hp, template_catalog, template_instance,
    template_binding, segments_binding iid bid hi hb, matchSegs, hi.1, hb.1]

theorem findRoute_unBind (r : Request) (iid bid : String) (hm : r.Method = "DELETE")
    (hp : r.Path = "/v2/service_instances/" ++ iid ++ "/service_bindings/" ++ bid)
    (hi : pathToken iid) (hb : pathToken bid) :
    findRoute routes r = some (.unBind, [("instance_id", iid), ("binding_id", bid)]) := by
  simp [findRoute, routes, Route.matches, hm, hp, template_catalog, template_instance,
    template_binding, segments_binding iid bid hi hb, matchSegs, hi.1, hb.1]

theorem data_ne_of_ne (t : String) (l : List Char) (h : t ≠ String.mk l) : t.data ≠ l := by
  intro e
  apply h
  cases t
  simp_all

theorem getLast_not_slash (pre l : List Char) (hne : l ≠ []) (hs : '/' ∉ l) :
    (pre ++ l).getLast? ≠ some '/' := by
  intro e
  rw [List.getLast?_append_of_ne_nil _ hne] at e
  exact hs (List.mem_of_getLast?_eq_some e)

theorem splitSlash_instance (id : String) (h : pathToken id) :
    splitSlash ("/v2/service_instances/" ++ id).data
      = [[], "v2".data, "service_instances".data, id.data] := by
  rw [String.data_append]
  show splitSlash ([] ++ '/' :: ("v2".data ++ '/' :: ("service_instances".data ++ '/' :: id.data)))
    = _
  rw [splitSlash_token_slash _ _ (by decide), splitSlash_token_slash _ _ (by decide),
    splitSlash_token_slash _ _ (by decide), splitSlash_token _ h.2.1]

theorem cleanPath_catalog : cleanPath "/v2/catalog" = "/v2/catalog" := by decide

theorem cleanPath_instance (id : String) (h : pathToken id) :
    cleanPath ("/v2/service_instances/" ++ id) = "/v2/service_instances/" ++ id := by
  have hne : id.data ≠ [] := data_ne_of_ne id [] h.1
  have hdot : id.data ≠ ['.'] := data_ne_of_ne id ['.'] h.2.2.1
  have hdd : id.data ≠ ['.', '.'] := data_ne_of_ne id ['.', '.'] h.2.2.2
  have hlast := getLast_not_slash "/v2/service_instances/".data id.data hne h.2.1
  have hsplit := splitSlash_instance id h
  rw [String.data_append] at hsplit
  apply String.ext
  simp only [cleanPath, String.data_append]
  have hd : "/v2/service_instances/".data ++ id.data ≠ [] := by simp
  simp only [hd, if_false]
  have hh : ("/v2/service_instances/".data ++ id.data).head? = some '/' := rfl
  simp only [hh, if_true, hlast, false_and, if_false, pathClean, hsplit]
  simp [cleanElems, joinSlash, hne, hdot, hdd]

theorem splitSlash_binding (iid bid : String) (hi : pathToken iid) (hb : pathToken bid) :
    splitSlash ("/v2/service_instances/".data ++ iid.data ++ "/service_bindings/".data
        ++ bid.data)
      = [[], "v2".data, "service_instances".data, iid.data, "service_bindings".data,
          bid.data] := by
  show splitSlash ((([] ++ '/' :: ("v2".data ++ '/' :: ("service_instances".data ++ ['/'])))
      ++ iid.data) ++ ('/' :: ("service_bindings".data ++ ['/']))  ++ bid.data) = _
  simp only [List.append_assoc, List.cons_append, List.nil_append]
  have h2 : splitSlash (iid.data ++ '/' :: ("service_bindings".data ++ '/' :: bid.data))
      = iid.data :: "service_bindings".data :: splitSlash bid.data := by
    rw [splitSlash_token_slash _ _ hi.2.1, splitSlash_token_slash _ _ (by decide)]
  simp only [List.cons_append, List.nil_append] at h2
  simp [splitSlash, h2, splitSlash_token _ hb.2.1]

theorem cleanPath_binding (iid bid : String) (hi : pathToken iid) (hb : pathToken bid) :
    cleanPath ("/v2/service_instances/" ++ iid ++ "/service_bindings/" ++ bid)
      = "/v2/service_instances/" ++ iid ++ "/service_bindings/" ++ bid := by
  have hne : iid.data ≠ [] := data_ne_of_ne iid [] hi.1
  have hdot : iid.data ≠ ['.'] := data_ne_of_ne iid ['.'] hi.2.2.1
  have hdd : iid.data ≠ ['.', '.'] := data_ne_of_ne iid ['.', '.'] hi.2.2.2
  have hne2 : bid.data ≠ [] := data_ne_of_ne bid [] hb.1
  have hdot2 : bid.data ≠ ['.'] := data_ne_of_ne bid ['.'] hb.2.2.1
  have hdd2 : bid.data ≠ ['.', '.'] := data_ne_of_ne bid ['.', '.'] hb.2.2.2
  have hlast := getLast_not_slash
    ("/v2/service_instances/".data ++ iid.data ++ "/service_bindings/".data) bid.data hne2
    hb.2.1
  have hsplit := splitSlash_binding iid bid hi hb
  apply String.ext
  simp only [cleanPath, String.data_append]
  have hd : "/v2/service_instances/".data ++ iid.data ++ "/service_bindings/".data
      ++ bid.data ≠ [] := by simp
  simp only [hd, if_false]
  have hh : ("/v2/service_instances/".data ++ iid.data ++ "/service_bindings/".data
      ++ bid.data).head? = some '/' := rfl
  simp only [hh, if_true, hlast, false_and, if_false, pathClean, hsplit]
  simp [cleanElems, joinSlash, hne, hdot, hdd, hne2, hdot2, hdd2]


theorem CreateHandler_routed {σ : Type} (u : Util) (b : Broker σ) (r : Request) (st : σ)
    (h : HandlerName) (vars : GoMap String) (hclean : cleanPath r.Path = r.Path)
    (hroute : findRoute routes r = some (h, vars)) :
    CreateHandler u b r st
      = (server.mk b).handle u h (Exec.start st) { r with Vars := vars } := by
  simp [CreateHandler, hclean, hroute]

theorem Var_instance_id (r : Request) (i : String) (rest : GoMap String) :
    Request.Var { r with Vars := ("instance_id", i) :: rest } "instance_id" = i := by
  simp [Request.Var, mapGet, List.lookup]

theorem Var_binding_id (r : Request) (i j : String) :
    Request.Var { r with Vars := [("instance_id", i), ("binding_id", j)] } "binding_id" = j := by
  simp [Request.Var, mapGet, List.lookup]

theorem Body_with_Vars (r : Request) (vars : GoMap String) :
    Request.Body { r with Vars := vars } = r.Body := rfl

/-! ## What the broker is given -/

/-- C1. When the body of a create request decodes and the decoded
`Parameters` is nil, `createServiceInstance` invokes the broker's
`CreateServiceInstance` once, with the path's instance id and with the decoded
request in which `Parameters` is a map that is not nil and has no entries; the
broker operation runs on exactly that request. -/
theorem createServiceInstance_nil_parameters_become_empty_map {σ : Type} (u : Util)
    (s : server σ) (x : Exec σ) (r : Request) (req : CreateServiceInstanceRequest)
    (hdec : u.BodyToCreateServiceInstanceRequest r.Body = .ok req)
    (hnil : req.Parameters = none) :
    ∃ sent : CreateServiceInstanceRequest, ∃ m : GoMap JSON,
      (s.createServiceInstance u x r).calls
          = x.calls ++ [BrokerCall.CreateServiceInstance (r.Var "instance_id") sent]
        ∧ (s.createServiceInstance u x r).st
          = (s.broker.CreateServiceInstance (r.Var "instance_id") sent x.st).2
        ∧ sent.Parameters = some m ∧ m.length = 0 ∧ mapKeys m = []
        ∧ sent.ServiceID = req.ServiceID ∧ sent.PlanID = req.PlanID := by
  refine ⟨req.defaultParameters, makeMap, ?_, ?_, ?_, rfl, rfl, ?_, ?_⟩
  · simp only [server.createServiceInstance, hdec, Exec.invoke]
    split <;> rename_i heq <;> simp only [Prod.mk.injEq] at heq <;>
      obtain ⟨-, rfl⟩ := heq <;> rfl
  · simp only [server.createServiceInstance, hdec, Exec.invoke]
    split <;> rename_i heq <;> simp only [Prod.mk.injEq] at heq <;>
      obtain ⟨-, rfl⟩ := heq <;> rfl
  · simp [CreateServiceInstanceRequest.defaultParameters, hnil]
  · simp [CreateServiceInstanceRequest.defaultParameters, hnil]
  · simp [CreateServiceInstanceRequest.defaultParameters, hnil]

theorem createServiceInstance_nil_parameters_become_empty_map_witness :
    sampleUtil.BodyToCreateServiceInstanceRequest putInstanceRequest.Body
        = .ok ⟨"s1", "p1", none⟩
      ∧ ∃ sent : CreateServiceInstanceRequest, ∃ m : GoMap JSON,
        ((server.mk okBroker).createServiceInstance sampleUtil (Exec.start ())
            putInstanceRequest).calls
          = (Exec.start ()).calls
              ++ [BrokerCall.CreateServiceInstance (putInstanceRequest.Var "instance_id") sent]
        ∧ ((server.mk okBroker).createServiceInstance sampleUtil (Exec.start ())
            putInstanceRequest).st
          = (okBroker.CreateServiceInstance (putInstanceRequest.Var "instance_id") sent
              (Exec.start ()).st).2
        ∧ sent.Parameters = some m ∧ m.length = 0 ∧ mapKeys m = []
        ∧ sent.ServiceID = "s1" ∧ sent.PlanID = "p1" :=
  ⟨rfl, createServiceInstance_nil_parameters_become_empty_map sampleUtil (server.mk okBroker)
    (Exec.start ()) putInstanceRequest ⟨"s1", "p1", none⟩ rfl rfl⟩

/-- C2. For a `PUT /v2/service_instances/(instance_id)/service_bindings/(binding_id)`
request whose body decodes, the ids being path tokens (not empty, without a
slash, and not one of the elements `.` and `..`, on which the router redirects
instead of routing), the only broker invocation is `Bind` with the instance id
and the binding id of the path, and the request it is given has a parameter
map in which `instanceId` is the path's instance id, whatever the decoded
parameters were (nil, without that key, or with another value under it). -/
theorem bind_forwards_path_instance_id_as_parameter {σ : Type} (u : Util) (b : Broker σ)
    (r : Request) (st : σ) (instanceID bindingID : String) (req : BindingRequest)
    (hm : r.Method = "PUT")
    (hp : r.Path = "/v2/service_instances/" ++ instanceID ++ "/service_bindings/" ++ bindingID)
    (hi : pathToken instanceID) (hb : pathToken bindingID)
    (hdec : u.BodyToBindingRequest r.Body = .ok req) :
    ∃ sent : BindingRequest, ∃ m : GoMap JSON,
      (CreateHandler u b r st).calls = [BrokerCall.Bind instanceID bindingID sent]
        ∧ (CreateHandler u b r st).st = (b.Bind instanceID bindingID sent st).2
        ∧ sent.Parameters = some m
        ∧ mapGet m "instanceId" = some (JSON.str instanceID) := by
  refine ⟨req.forwarded instanceID,
    mapSet (req.defaultParameters.Parameters.getD makeMap) "instanceId" (JSON.str instanceID),
    ?_, ?_, rfl, mapGet_mapSet_self _ _ _⟩
  · rw [CreateHandler_routed u b r st _ _ (by rw [hp]; exact cleanPath_binding _ _ hi hb)
      (findRoute_bind r instanceID bindingID hm hp hi hb)]
    simp only [server.handle, bind_eq, Var_instance_id, Var_binding_id, Body_with_Vars, hdec]
    split <;> simp [Exec.after, Exec.WriteResponse, Exec.start]
  · rw [CreateHandler_routed u b r st _ _ (by rw [hp]; exact cleanPath_binding _ _ hi hb)
      (findRoute_bind r instanceID bindingID hm hp hi hb)]
    simp only [server.handle, bind_eq, Var_instance_id, Var_binding_id, Body_with_Vars, hdec]
    split <;> simp [Exec.after, Exec.WriteResponse, Exec.start]

theorem bind_forwards_path_instance_id_as_parameter_witness :
    pathToken "abc" ∧ pathToken "b1"
      ∧ sampleUtil.BodyToBindingRequest putBindingRequest.Body
          = .ok ⟨"", "", some [("instanceId", .str "other"), ("user", .str "u")]⟩
      ∧ ∃ sent : BindingRequest, ∃ m : GoMap JSON,
        (CreateHandler sampleUtil okBroker putBindingRequest ()).calls
            = [BrokerCall.Bind "abc" "b1" sent]
          ∧ (CreateHandler sampleUtil okBroker putBindingRequest ()).st
            = (okBroker.Bind "abc" "b1" sent ()).2
          ∧ sent.Parameters = some m
          ∧ mapGet m "instanceId" = some (JSON.str "abc") :=
  ⟨by decide, by decide, rfl,
    bind_forwards_path_instance_id_as_parameter sampleUtil okBroker putBindingRequest ()
      "abc" "b1" ⟨"", "", some [("instanceId", .str "other"), ("user", .str "u")]⟩ rfl rfl
      (by decide) (by decide) rfl⟩

/-- C9. A request that matches one of the six registered routes (and whose
body decodes where the handler reads one) leads to exactly one broker
invocation: the operation the routing table names, given the path's instance
id and binding id unchanged and in that order; the broker state afterwards is
the one that single operation returned. A path matches when its ids are path
tokens: not empty, without a slash, and not one of the elements `.` and `..`,
on which the router redirects to the clean path and runs no handler. -/
theorem each_route_invokes_its_broker_operation_once {σ : Type} (u : Util) (b : Broker σ)
    (r : Request) (st : σ) (instanceID bindingID : String) :
    (r.Method = "GET" → r.Path = "/v2/catalog" →
        (CreateHandler u b r st).calls = [BrokerCall.Catalog]
          ∧ (CreateHandler u b r st).st = (b.Catalog st).2)
    ∧ (r.Method = "GET" → r.Path = "/v2/service_instances/" ++ instanceID →
        pathToken instanceID →
        (CreateHandler u b r st).calls = [BrokerCall.GetServiceInstance instanceID]
          ∧ (CreateHandler u b r st).st = (b.GetServiceInstance instanceID st).2)
    ∧ (r.Method = "PUT" → r.Path = "/v2/service_instances/" ++ instanceID →
        pathToken instanceID →
        ∀ req, u.BodyToCreateServiceInstanceRequest r.Body = .ok req →
        (CreateHandler u b r st).calls
            = [BrokerCall.CreateServiceInstance instanceID req.defaultParameters]
          ∧ (CreateHandler u b r st).st
            = (b.CreateServiceInstance instanceID req.defaultParameters st).2)
    ∧ (r.Method = "DELETE" → r.Path = "/v2/service_instances/" ++ instanceID →
        pathToken instanceID →
        (CreateHandler u b r st).calls = [BrokerCall.RemoveServiceInstance instanceID]
          ∧ (CreateHandler u b r st).st = (b.RemoveServiceInstance instanceID st).2)
    ∧ (r.Method = "PUT" →
        r.Path = "/v2/service_instances/" ++ instanceID ++ "/service_bindings/" ++ bindingID →
        pathToken instanceID → pathToken bindingID →
        ∀ req, u.BodyToBindingRequest r.Body = .ok req →
        (CreateHandler u b r st).calls
            = [BrokerCall.Bind instanceID bindingID (req.forwarded instanceID)]
          ∧ (CreateHandler u b r st).st
            = (b.Bind instanceID bindingID (req.forwarded instanceID) st).2)
    ∧ (r.Method = "DELETE" →
        r.Path = "/v2/service_instances/" ++ instanceID ++ "/service_bindings/" ++ bindingID →
        pathToken instanceID → pathToken bindingID →
        (CreateHandler u b r st).calls = [BrokerCall.UnBind instanceID bindingID]
          ∧ (CreateHandler u b r st).st = (b.UnBind instanceID bindingID st).2) := by
  refine ⟨?_, ?_, ?_, ?_, ?_, ?_⟩
  · intro hm hp
    rw [CreateHandler_routed u b r st _ _ (by rw [hp]; exact cleanPath_catalog)
      (findRoute_catalog r hm hp)]
    simp only [server.handle, catalog_eq]
    split <;> simp [Exec.after, Exec.WriteResponse, Exec.start]
  · intro hm hp hi
    rw [CreateHandler_routed u b r st _ _ (by rw [hp]; exact cleanPath_instance _ hi)
      (findRoute_getServiceInstance r instanceID hm hp hi)]
    simp only [server.handle, getServiceInstance_eq, Var_instance_id]
    split <;> simp [Exec.after, Exec.WriteResponse, Exec.start]
  · intro hm hp hi req hdec
    rw [CreateHandler_routed u b r st _ _ (by rw [hp]; exact cleanPath_instance _ hi)
      (findRoute_createServiceInstance r instanceID hm hp hi)]
    simp only [server.handle, createServiceInstance_eq, Var_instance_id, Body_with_Vars, hdec]
    split <;> simp [Exec.after, Exec.WriteResponse, Exec.start]
  · intro hm hp hi
    rw [CreateHandler_routed u b r st _ _ (by rw [hp]; exact cleanPath_instance _ hi)
      (findRoute_removeServiceInstance r instanceID hm hp hi)]
    simp only [server.handle, removeServiceInstance_eq, Var_instance_id]
    split <;> simp [Exec.after, Exec.WriteResponse, Exec.start]
  · intro hm hp hi hb req hdec
    rw [CreateHandler_routed u b r st _ _ (by rw [hp]; exact cleanPath_binding _ _ hi hb)
      (findRoute_bind r instanceID bindingID hm hp hi hb)]
    simp only [server.handle, bind_eq, Var_instance_id, Var_binding_id, Body_with_Vars, hdec]
    split <;> simp [Exec.after, Exec.WriteResponse, Exec.start]
  · intro hm hp hi hb
    rw [CreateHandler_routed u b r st _ _ (by rw [hp]; exact cleanPath_binding _ _ hi hb)
      (findRoute_unBind r instanceID bindingID hm hp hi hb)]
    simp only [server.handle, unBind_eq, Var_instance_id, Var_binding_id]
    split <;> simp [Exec.after, Exec.WriteResponse, Exec.start]

theorem each_route_invokes_its_broker_operation_once_witness :
    ((CreateHandler sampleUtil okBroker getCatalogRequest ()).calls = [BrokerCall.Catalog]
        ∧ (CreateHandler sampleUtil okBroker getCatalogRequest ()).st = (okBroker.Catalog ()).2)
    ∧ ((CreateHandler sampleUtil okBroker getInstanceRequest ()).calls
          = [BrokerCall.GetServiceInstance "abc"]
        ∧ (CreateHandler sampleUtil okBroker getInstanceRequest ()).st
          = (okBroker.GetServiceInstance "abc" ()).2)
    ∧ ((CreateHandler sampleUtil okBroker putInstanceRequest ()).calls
          = [BrokerCall.CreateServiceInstance "abc"
              (CreateServiceInstanceRequest.defaultParameters ⟨"s1", "p1", none⟩)]
        ∧ (CreateHandler sampleUtil okBroker putInstanceRequest ()).st
          = (okBroker.CreateServiceInstance "abc"
              (CreateServiceInstanceRequest.defaultParameters ⟨"s1", "p1", none⟩) ()).2)
    ∧ ((CreateHandler sampleUtil okBroker deleteInstanceRequest ()).calls
          = [BrokerCall.RemoveServiceInstance "abc"]
        ∧ (CreateHandler sampleUtil okBroker deleteInstanceRequest ()).st
          = (okBroker.RemoveServiceInstance "abc" ()).2)
    ∧ ((CreateHandler sampleUtil bindingBroker putBindingRequest []).calls
          = [BrokerCall.Bind "abc" "b1"
              (BindingRequest.forwarded
                ⟨"", "", some [("instanceId", .str "other"), ("user", .str "u")]⟩ "abc")]
        ∧ (CreateHandler sampleUtil bindingBroker putBindingRequest []).st
          = (bindingBroker.Bind "abc" "b1"
              (BindingRequest.forwarded
                ⟨"", "", some [("instanceId", .str "other"), ("user", .str "u")]⟩ "abc") []).2)
    ∧ ((CreateHandler sampleUtil bindingBroker deleteBindingRequest [("abc", "b1")]).calls
          = [BrokerCall.UnBind "abc" "b1"]
        ∧ (CreateHandler sampleUtil bindingBroker deleteBindingRequest [("abc", "b1")]).st
          = (bindingBroker.UnBind "abc" "b1" [("abc", "b1")]).2) :=
  ⟨(each_route_invokes_its_broker_operation_once sampleUtil okBroker getCatalogRequest ()
      "abc" "b1").1 rfl rfl,
   (each_route_invokes_its_broker_operation_once sampleUtil okBroker getInstanceRequest ()
      "abc" "b1").2.1 rfl rfl (by decide),
   (each_route_invokes_its_broker_operation_once sampleUtil okBroker putInstanceRequest ()
      "abc" "b1").2.2.1 rfl rfl (by decide) ⟨"s1", "p1", none⟩ rfl,
   (each_route_invokes_its_broker_operation_once sampleUtil okBroker deleteInstanceRequest ()
      "abc" "b1").2.2.2.1 rfl rfl (by decide),
   (each_route_invokes_its_broker_operation_once sampleUtil bindingBroker putBindingRequest []
      "abc" "b1").2.2.2.2.1 rfl rfl (by decide) (by decide)
      ⟨"", "", some [("instanceId", .str "other"), ("user", .str "u")]⟩ rfl,
   (each_route_invokes_its_broker_operation_once sampleUtil bindingBroker deleteBindingRequest
      [("abc", "b1")] "abc" "b1").2.2.2.2.2 rfl rfl (by decide) (by decide)⟩

/-! ## The frame of `bind` -/

/-- C10. For a bind request whose body decodes, the request handed to the
broker's `Bind` differs from the decoded one only at the parameter key
`instanceId`: every other key reads as in the caller's parameters (present
with the same value, or absent as before), and the fields other than
`Parameters` are unchanged. -/
theorem bind_changes_only_the_instanceId_parameter {σ : Type} (u : Util) (s : server σ)
    (x : Exec σ) (r : Request) (req : BindingRequest)
    (hdec : u.BodyToBindingRequest r.Body = .ok req) :
    ∃ sent : BindingRequest, ∃ m : GoMap JSON,
      (s.bind u x r).calls
          = x.calls ++ [BrokerCall.Bind (r.Var "instance_id") (r.Var "binding_id") sent]
        ∧ sent.Parameters = some m
        ∧ (∀ k : String, k ≠ "instanceId" →
            mapGet m k = mapGet (req.Parameters.getD makeMap) k)
        ∧ sent.ServiceID = req.ServiceID ∧ sent.PlanID = req.PlanID := by
  refine ⟨req.forwarded (r.Var "instance_id"),
    mapSet (req.defaultParameters.Parameters.getD makeMap) "instanceId"
      (JSON.str (r.Var "instance_id")), ?_, rfl, ?_, ?_, ?_⟩
  · rw [bind_eq]
    simp only [hdec]
    split <;> simp [Exec.after, Exec.WriteResponse]
  · intro k hk
    rw [mapGet_mapSet_other _ _ _ _ hk]
    cases hpar : req.Parameters <;> simp [BindingRequest.defaultParameters, hpar]
  · simp only [BindingRequest.forwarded, BindingRequest.setInstanceId,
      BindingRequest.defaultParameters]
    split <;> rfl
  · simp only [BindingRequest.forwarded, BindingRequest.setInstanceId,
      BindingRequest.defaultParameters]
    split <;> rfl

theorem bind_changes_only_the_instanceId_parameter_witness :
    sampleUtil.BodyToBindingRequest putBindingRequest.Body
        = .ok ⟨"", "", some [("instanceId", .str "other"), ("user", .str "u")]⟩
      ∧ ∃ sent : BindingRequest, ∃ m : GoMap JSON,
        ((server.mk okBroker).bind sampleUtil (Exec.start ()) putBindingRequest).calls
            = (Exec.start ()).calls
                ++ [BrokerCall.Bind (putBindingRequest.Var "instance_id")
                      (putBindingRequest.Var "binding_id") sent]
          ∧ sent.Parameters = some m
          ∧ (∀ k : String, k ≠ "instanceId" →
              mapGet m k
                = mapGet ((some [("instanceId", JSON.str "other"),
                    ("user", JSON.str "u")]).getD makeMap) k)
          ∧ sent.ServiceID = "" ∧ sent.PlanID = "" :=
  ⟨rfl, bind_changes_only_the_instanceId_parameter sampleUtil (server.mk okBroker)
    (Exec.start ()) putBindingRequest
    ⟨"", "", some [("instanceId", .str "other"), ("user", .str "u")]⟩ rfl⟩

/-! ## The response -/

/-- C3. In each of the six handlers, when the broker operation returns an
error that is not nil, the response status is 400, whatever the error is. -/
theorem broker_error_is_answered_with_status_400 {σ : Type} (u : Util) (s : server σ) (st : σ)
    (r : Request) (err : GoError) :
    ((s.broker.Catalog st).1.2 = some err →
        (s.catalog (Exec.start st) r).w.status = 400)
    ∧ ((s.broker.GetServiceInstance (r.Var "instance_id") st).1.2 = some err →
        (s.getServiceInstance (Exec.start st) r).w.status = 400)
    ∧ (∀ req, u.BodyToCreateServiceInstanceRequest r.Body = .ok req →
        (s.broker.CreateServiceInstance (r.Var "instance_id") req.defaultParameters st).1.2
          = some err →
        (s.createServiceInstance u (Exec.start st) r).w.status = 400)
    ∧ ((s.broker.RemoveServiceInstance (r.Var "instance_id") st).1.2 = some err →
        (s.removeServiceInstance (Exec.start st) r).w.status = 400)
    ∧ (∀ req, u.BodyToBindingRequest r.Body = .ok req →
        (s.broker.Bind (r.Var "instance_id") (r.Var "binding_id")
          (req.forwarded (r.Var "instance_id")) st).1.2 = some err →
        (s.bind u (Exec.start st) r).w.status = 400)
    ∧ ((s.broker.UnBind (r.Var "instance_id") (r.Var "binding_id") st).1 = some err →
        (s.unBind (Exec.start st) r).w.status = 400) := by
  refine ⟨?_, ?_, ?_, ?_, ?_, ?_⟩
  · intro h
    have h' : (s.broker.Catalog (Exec.start st).st).1.2 = some err := h
    simp [catalog_eq, h, h', Exec.WriteResponse, Exec.after, Exec.start, WriteResponse_fresh,
      StatusBadRequest]
  · intro h
    have h' : (s.broker.GetServiceInstance (r.Var "instance_id") (Exec.start st).st).1.2
        = some err := h
    simp [getServiceInstance_eq, h, h', Exec.WriteResponse, Exec.after, Exec.start,
      WriteResponse_fresh, StatusBadRequest]
  · intro req hdec h
    have h' : (s.broker.CreateServiceInstance (r.Var "instance_id") req.defaultParameters
        (Exec.start st).st).1.2 = some err := h
    simp [createServiceInstance_eq, hdec, h, h', Exec.WriteResponse, Exec.after, Exec.start,
      WriteResponse_fresh, StatusBadRequest]
  · intro h
    have h' : (s.broker.RemoveServiceInstance (r.Var "instance_id") (Exec.start st).st).1.2
        = some err := h
    simp [removeServiceInstance_eq, h, h', Exec.WriteResponse, Exec.after, Exec.start,
      WriteResponse_fresh, StatusBadRequest]
  · intro req hdec h
    have h' : (s.broker.Bind (r.Var "instance_id") (r.Var "binding_id")
        (req.forwarded (r.Var "instance_id")) (Exec.start st).st).1.2 = some err := h
    simp [bind_eq, hdec, h, h', Exec.WriteResponse, Exec.after, Exec.start, WriteResponse_fresh,
      StatusBadRequest]
  · intro h
    have h' : (s.broker.UnBind (r.Var "instance_id") (r.Var "binding_id")
        (Exec.start st).st).1 = some err := h
    simp [unBind_eq, h, h', Exec.WriteResponse, Exec.after, Exec.start, WriteResponse_fresh,
      StatusBadRequest]

theorem broker_error_is_answered_with_status_400_witness :
    ((server.mk (failingBroker (errorsNew "backend down"))).catalog (Exec.start ())
        getCatalogRequest).w.status = 400
    ∧ ((server.mk (failingBroker (errorsNew "backend down"))).getServiceInstance
        (Exec.start ()) getInstanceRequest).w.status = 400
    ∧ ((server.mk (failingBroker (errorsNew "backend down"))).createServiceInstance sampleUtil
        (Exec.start ()) putInstanceRequest).w.status = 400
    ∧ ((server.mk (failingBroker (errorsNew "backend down"))).removeServiceInstance
        (Exec.start ()) deleteInstanceRequest).w.status = 400
    ∧ ((server.mk (failingBroker (errorsNew "backend down"))).bind sampleUtil (Exec.start ())
        putBindingRequest).w.status = 400
    ∧ ((server.mk bindingBroker).unBind (Exec.start [("abc", "b1")])
        routedDeleteBindingRequest).st = []
    ∧ ((server.mk bindingBroker).unBind (Exec.start []) routedDeleteBindingRequest).w.status
        = 400 :=
  ⟨(broker_error_is_answered_with_status_400 sampleUtil
      (server.mk (failingBroker (errorsNew "backend down"))) () getCatalogRequest
      (errorsNew "backend down")).1 rfl,
   (broker_error_is_answered_with_status_400 sampleUtil
      (server.mk (failingBroker (errorsNew "backend down"))) () getInstanceRequest
      (errorsNew "backend down")).2.1 rfl,
   (broker_error_is_answered_with_status_400 sampleUtil
      (server.mk (failingBroker (errorsNew "backend down"))) () putInstanceRequest
      (errorsNew "backend down")).2.2.1 ⟨"s1", "p1", none⟩ rfl rfl,
   (broker_error_is_answered_with_status_400 sampleUtil
      (server.mk (failingBroker (errorsNew "backend down"))) () deleteInstanceRequest
      (errorsNew "backend down")).2.2.2.1 rfl,
   (broker_error_is_answered_with_status_400 sampleUtil
      (server.mk (failingBroker (errorsNew "backend down"))) () putBindingRequest
      (errorsNew "backend down")).2.2.2.2.1
      ⟨"", "", some [("instanceId", .str "other"), ("user", .str "u")]⟩ rfl rfl,
   by decide,
   (broker_error_is_answered_with_status_400 sampleUtil (server.mk bindingBroker) []
      routedDeleteBindingRequest (errorsNew "binding not found")).2.2.2.2.2 rfl⟩

/-- C8. When the broker's `UnBind` returns a nil error, `unBind` responds with
status 200 and the body is exactly the empty JSON object, whatever the instance
id and the binding id are. -/
theorem unBind_success_is_status_200_with_empty_object {σ : Type} (s : server σ) (st : σ)
    (r : Request)
    (hok : (s.broker.UnBind (r.Var "instance_id") (r.Var "binding_id") st).1 = none) :
    (s.unBind (Exec.start st) r).w.status = 200
      ∧ (s.unBind (Exec.start st) r).w.body = "\x7b\x7d" := by
  have h' : (s.broker.UnBind (r.Var "instance_id") (r.Var "binding_id")
      (Exec.start st).st).1 = none := hok
  simp [unBind_eq, hok, h', Exec.after, Exec.start, ResponseWriter.fresh,
    ResponseWriter.WriteHeader, ResponseWriter.HeaderSet, ResponseWriter.Write, StatusOK]

theorem unBind_success_is_status_200_with_empty_object_witness :
    (bindingBroker.UnBind (routedDeleteBindingRequest.Var "instance_id")
        (routedDeleteBindingRequest.Var "binding_id") [("abc", "b1")]).1 = none
      ∧ ((server.mk bindingBroker).unBind (Exec.start [("abc", "b1")])
          routedDeleteBindingRequest).w.status = 200
      ∧ ((server.mk bindingBroker).unBind (Exec.start [("abc", "b1")])
          routedDeleteBindingRequest).w.body = "\x7b\x7d" :=
  ⟨rfl, unBind_success_is_status_200_with_empty_object (server.mk bindingBroker)
    [("abc", "b1")] routedDeleteBindingRequest rfl⟩

/-- C6. At the input of the repository's own test, a `Catalog` that fails with
`errors.New("Catalog retrieval error")`, the response to `GET /v2/catalog` has
status 400 and the body is the empty JSON object: the error's message is not
in the body. -/
theorem catalog_error_body_omits_the_message :
    (CreateHandler sampleUtil (failingBroker (errorsNew "Catalog retrieval error"))
        getCatalogRequest ()).w.status = 400
      ∧ (CreateHandler sampleUtil (failingBroker (errorsNew "Catalog retrieval error"))
        getCatalogRequest ()).w.body = "\x7b\x7d"
      ∧ ¬ ((errorsNew "Catalog retrieval error").message.data <:+:
          (CreateHandler sampleUtil (failingBroker (errorsNew "Catalog retrieval error"))
            getCatalogRequest ()).w.body.data) := by
  decide

/-- C7. At a `DELETE` of a binding on which the broker's `UnBind` succeeds, the
header is sent (status 200) before the content type is set: the header map the
handler holds has the JSON media type, the header that was sent has no content
type at all, so the client receives whatever type the server detects from the
body, which for Go's detection of the text of the empty object is plain text
and not the JSON media type. -/
theorem unBind_success_sends_no_content_type :
    (CreateHandler sampleUtil okBroker deleteBindingRequest ()).w.status = 200
      ∧ (CreateHandler sampleUtil okBroker deleteBindingRequest ()).w.header
        = [("Content-Type", "application/json")]
      ∧ (CreateHandler sampleUtil okBroker deleteBindingRequest ()).w.sentHeader = []
      ∧ (∀ sniff : String → String,
          (CreateHandler sampleUtil okBroker deleteBindingRequest ()).w.clientContentType sniff
            = sniff "\x7b\x7d")
      ∧ (CreateHandler sampleUtil okBroker deleteBindingRequest ()).w.clientContentType
          (fun _ => "text/plain; charset=utf-8") ≠ "application/json" := by
  refine ⟨by decide, by decide, by decide, fun sniff => rfl, by decide⟩

/-- Every response written by `util.WriteResponse` on a fresh writer reaches
the client with the JSON media type; that covers both outcomes of the five
other handlers and the error outcome of `unBind`. -/
theorem WriteResponse_content_type (sniff : String → String) (code : Nat) (object : Object) :
    (WriteResponse ResponseWriter.fresh code object).clientContentType sniff
      = "application/json" := by
  simp [WriteResponse_fresh, ResponseWriter.clientContentType, mapGet, List.lookup]

/-- When the body of a create or bind request fails to decode, the response
has status 400 and no broker operation is invoked: the call log stays empty
and the broker state is untouched. -/
theorem decode_failure_status_and_no_broker_call {σ : Type} (u : Util) (s : server σ)
    (st : σ) (r : Request) (err : GoError) :
    (u.BodyToCreateServiceInstanceRequest r.Body = .error err →
        (s.createServiceInstance u (Exec.start st) r).w.status = 400
          ∧ (s.createServiceInstance u (Exec.start st) r).calls = []
          ∧ (s.createServiceInstance u (Exec.start st) r).st = st)
    ∧ (u.BodyToBindingRequest r.Body = .error err →
        (s.bind u (Exec.start st) r).w.status = 400
          ∧ (s.bind u (Exec.start st) r).calls = []
          ∧ (s.bind u (Exec.start st) r).st = st) := by
  constructor
  · intro hdec
    simp [createServiceInstance_eq, hdec, Exec.WriteResponse, Exec.start, WriteResponse_fresh,
      StatusBadRequest]
  · intro hdec
    simp [bind_eq, hdec, Exec.WriteResponse, Exec.start, WriteResponse_fresh,
      StatusBadRequest]

/-- C4. At a create request and at a bind request with an empty body, which
fails to decode with the syntax error `unexpected end of JSON input`, the
response has status 400 and no broker operation is invoked, but the body is
the object of the error's exported fields only, `Offset`: the text of the
decode error is not in the body. -/
theorem decode_failure_body_omits_the_message :
    ((CreateHandler sampleUtil okBroker emptyBodyInstanceRequest ()).w.status = 400
      ∧ (CreateHandler sampleUtil okBroker emptyBodyInstanceRequest ()).calls = []
      ∧ (CreateHandler sampleUtil okBroker emptyBodyInstanceRequest ()).w.body
        = "\x7b\"Offset\":0\x7d"
      ∧ ¬ (endOfInputError.message.data <:+:
          (CreateHandler sampleUtil okBroker emptyBodyInstanceRequest ()).w.body.data))
    ∧ ((CreateHandler sampleUtil okBroker emptyBodyBindingRequest ()).w.status = 400
      ∧ (CreateHandler sampleUtil okBroker emptyBodyBindingRequest ()).calls = []
      ∧ (CreateHandler sampleUtil okBroker emptyBodyBindingRequest ()).w.body
        = "\x7b\"Offset\":0\x7d"
      ∧ ¬ (endOfInputError.message.data <:+:
          (CreateHandler sampleUtil okBroker emptyBodyBindingRequest ()).w.body.data)) := by
  refine ⟨⟨by decide, rfl, by decide, by decide⟩, ⟨by decide, rfl, by decide, by decide⟩⟩

/-- What `util.WriteResponse` writes reads back as the document of the value
it was given. -/
theorem parse_Marshal (o : Object) (hwf : o.toJSON.wellFormed = true) :
    JSON.parse (Marshal o) = some o.toJSON :=
  parse_render o.toJSON hwf

/-- C5. When the broker operation returns a nil error, the status is 201 for
`CreateServiceInstance` and 200 for `Catalog`, `GetServiceInstance`,
`RemoveServiceInstance` and `Bind`, and the response body is the encoding of
the result the broker returned: it is the text `json.Marshal` makes of it, and
read back as JSON it is the document of that result. In particular the body of
a catalog response, read back as JSON, has the name of the catalog's first
service at `services[0].name`. -/
theorem success_is_answered_with_the_encoded_result {σ : Type} (u : Util) (s : server σ)
    (st : σ) (r : Request) :
    (∀ res, (s.broker.Catalog st).1 = (res, none) →
        (s.catalog (Exec.start st) r).w.status = 200
          ∧ (s.catalog (Exec.start st) r).w.body = Marshal (Object.catalog res)
          ∧ ((Object.catalog res).toJSON.wellFormed = true →
              JSON.parse (s.catalog (Exec.start st) r).w.body
                = some (Object.catalog res).toJSON))
    ∧ (∀ res, (s.broker.GetServiceInstance (r.Var "instance_id") st).1 = (res, none) →
        (s.getServiceInstance (Exec.start st) r).w.status = 200
          ∧ (s.getServiceInstance (Exec.start st) r).w.body = Marshal (Object.string res)
          ∧ JSON.parse (s.getServiceInstance (Exec.start st) r).w.body = some (JSON.str res))
    ∧ (∀ req res, u.BodyToCreateServiceInstanceRequest r.Body = .ok req →
        (s.broker.CreateServiceInstance (r.Var "instance_id") req.defaultParameters st).1
          = (res, none) →
        (s.createServiceInstance u (Exec.start st) r).w.status = 201
          ∧ (s.createServiceInstance u (Exec.start st) r).w.body
            = Marshal (Object.createServiceInstanceResponse res)
          ∧ ((Object.createServiceInstanceResponse res).toJSON.wellFormed = true →
              JSON.parse (s.createServiceInstance u (Exec.start st) r).w.body
                = some (Object.createServiceInstanceResponse res).toJSON))
    ∧ (∀ res, (s.broker.RemoveServiceInstance (r.Var "instance_id") st).1 = (res, none) →
        (s.removeServiceInstance (Exec.start st) r).w.status = 200
          ∧ (s.removeServiceInstance (Exec.start st) r).w.body
            = Marshal (Object.deleteServiceInstanceResponse res)
          ∧ ((Object.deleteServiceInstanceResponse res).toJSON.wellFormed = true →
              JSON.parse (s.removeServiceInstance (Exec.start st) r).w.body
                = some (Object.deleteServiceInstanceResponse res).toJSON))
    ∧ (∀ req res, u.BodyToBindingRequest r.Body = .ok req →
        (s.broker.Bind (r.Var "instance_id") (r.Var "binding_id")
          (req.forwarded (r.Var "instance_id")) st).1 = (res, none) →
        (s.bind u (Exec.start st) r).w.status = 200
          ∧ (s.bind u (Exec.start st) r).w.body
            = Marshal (Object.createServiceBindingResponse res)
          ∧ ((Object.createServiceBindingResponse res).toJSON.wellFormed = true →
              JSON.parse (s.bind u (Exec.start st) r).w.body
                = some (Object.createServiceBindingResponse res).toJSON))
    ∧ (∀ svc rest, (s.broker.Catalog st).1 = (some ⟨svc :: rest⟩, none) →
        (Object.catalog (some ⟨svc :: rest⟩)).toJSON.wellFormed = true →
        (s.catalog (Exec.start st) r).w.status = 200
          ∧ (((JSON.parse (s.catalog (Exec.start st) r).w.body).bind
                (JSON.field "services")).bind (JSON.index 0)).bind (JSON.field "name")
            = some (JSON.str svc.Name)) := by
  have hcat : ∀ res, (s.broker.Catalog st).1 = (res, none) →
      (s.catalog (Exec.start st) r).w.status = 200
        ∧ (s.catalog (Exec.start st) r).w.body = Marshal (Object.catalog res) := by
    intro res h
    have h' : (s.broker.Catalog (Exec.start st).st).1 = (res, none) := h
    simp [catalog_eq, h, h', Exec.WriteResponse, Exec.after, Exec.start, WriteResponse_fresh,
      StatusOK]
  refine ⟨?_, ?_, ?_, ?_, ?_, ?_⟩
  · intro res h
    obtain ⟨h1, h2⟩ := hcat res h
    exact ⟨h1, h2, fun hwf => by rw [h2]; exact parse_Marshal _ hwf⟩
  · intro res h
    have h' : (s.broker.GetServiceInstance (r.Var "instance_id") (Exec.start st).st).1
        = (res, none) := h
    have h2 : (s.getServiceInstance (Exec.start st) r).w.body = Marshal (Object.string res) := by
      simp [getServiceInstance_eq, h, h', Exec.WriteResponse, Exec.after, Exec.start,
        WriteResponse_fresh]
    refine ⟨?_, h2, ?_⟩
    · simp [getServiceInstance_eq, h, h', Exec.WriteResponse, Exec.after, Exec.start,
        WriteResponse_fresh, StatusOK]
    · rw [h2]
      exact parse_Marshal (Object.string res) rfl
  · intro req res hdec h
    have h' : (s.broker.CreateServiceInstance (r.Var "instance_id") req.defaultParameters
        (Exec.start st).st).1 = (res, none) := h
    have h2 : (s.createServiceInstance u (Exec.start st) r).w.body
        = Marshal (Object.createServiceInstanceResponse res) := by
      simp [createServiceInstance_eq, hdec, h, h', Exec.WriteResponse, Exec.after, Exec.start,
        WriteResponse_fresh]
    refine ⟨?_, h2, fun hwf => by rw [h2]; exact parse_Marshal _ hwf⟩
    simp [createServiceInstance_eq, hdec, h, h', Exec.WriteResponse, Exec.after, Exec.start,
      WriteResponse_fresh, StatusCreated]
  · intro res h
    have h' : (s.broker.RemoveServiceInstance (r.Var "instance_id") (Exec.start st).st).1
        = (res, none) := h
    have h2 : (s.removeServiceInstance (Exec.start st) r).w.body
        = Marshal (Object.deleteServiceInstanceResponse res) := by
      simp [removeServiceInstance_eq, h, h', Exec.WriteResponse, Exec.after, Exec.start,
        WriteResponse_fresh]
    refine ⟨?_, h2, fun hwf => by rw [h2]; exact parse_Marshal _ hwf⟩
    simp [removeServiceInstance_eq, h, h', Exec.WriteResponse, Exec.after, Exec.start,
      WriteResponse_fresh, StatusOK]
  · intro req res hdec h
    have h' : (s.broker.Bind (r.Var "instance_id") (r.Var "binding_id")
        (req.forwarded (r.Var "instance_id")) (Exec.start st).st).1 = (res, none) := h
    have h2 : (s.bind u (Exec.start st) r).w.body
        = Marshal (Object.createServiceBindingResponse res) := by
      simp [bind_eq, hdec, h, h', Exec.WriteResponse, Exec.after, Exec.start,
        WriteResponse_fresh]
    refine ⟨?_, h2, fun hwf => by rw [h2]; exact parse_Marshal _ hwf⟩
    simp [bind_eq, hdec, h, h', Exec.WriteResponse, Exec.after, Exec.start,
      WriteResponse_fresh, StatusOK]
  · intro svc rest h hwf
    obtain ⟨h1, h2⟩ := hcat _ h
    refine ⟨h1, ?_⟩
    rw [h2, parse_Marshal _ hwf]
    simp [Object.toJSON, Catalog.toJSON, Service.toJSON, JSON.field, JSON.index, List.lookup]

theorem success_is_answered_with_the_encoded_result_witness :
    (((server.mk okBroker).catalog (Exec.start ()) getCatalogRequest).w.status = 200
      ∧ ((server.mk okBroker).catalog (Exec.start ()) getCatalogRequest).w.body
        = Marshal (Object.catalog (some ⟨[⟨"foo", "", "", none⟩]⟩))
      ∧ JSON.parse ((server.mk okBroker).catalog (Exec.start ()) getCatalogRequest).w.body
        = some (Object.catalog (some ⟨[⟨"foo", "", "", none⟩]⟩)).toJSON)
    ∧ (((server.mk okBroker).getServiceInstance (Exec.start ())
          routedGetInstanceRequest).w.status = 200
      ∧ ((server.mk okBroker).getServiceInstance (Exec.start ())
          routedGetInstanceRequest).w.body = Marshal (Object.string "abc")
      ∧ JSON.parse ((server.mk okBroker).getServiceInstance (Exec.start ())
          routedGetInstanceRequest).w.body = some (JSON.str "abc"))
    ∧ (((server.mk okBroker).createServiceInstance sampleUtil (Exec.start ())
          routedPutInstanceRequest).w.status = 201
      ∧ ((server.mk okBroker).createServiceInstance sampleUtil (Exec.start ())
          routedPutInstanceRequest).w.body
        = Marshal (Object.createServiceInstanceResponse
            (some ⟨.obj [("instance_id", .str "abc")]⟩))
      ∧ JSON.parse ((server.mk okBroker).createServiceInstance sampleUtil (Exec.start ())
          routedPutInstanceRequest).w.body
        = some (JSON.obj [("instance_id", .str "abc")]))
    ∧ (((server.mk okBroker).removeServiceInstance (Exec.start ())
          routedDeleteInstanceRequest).w.status = 200
      ∧ ((server.mk okBroker).removeServiceInstance (Exec.start ())
          routedDeleteInstanceRequest).w.body
        = Marshal (Object.deleteServiceInstanceResponse (some ⟨.obj []⟩))
      ∧ JSON.parse ((server.mk okBroker).removeServiceInstance (Exec.start ())
          routedDeleteInstanceRequest).w.body = some (JSON.obj []))
    ∧ (((server.mk okBroker).bind sampleUtil (Exec.start ()) routedPutBindingRequest).w.status
        = 200
      ∧ ((server.mk okBroker).bind sampleUtil (Exec.start ()) routedPutBindingRequest).w.body
        = Marshal (Object.createServiceBindingResponse
            (some ⟨.obj [("binding_id", .str "b1")]⟩))
      ∧ JSON.parse ((server.mk okBroker).bind sampleUtil (Exec.start ())
          routedPutBindingRequest).w.body
        = some (JSON.obj [("binding_id", .str "b1")]))
    ∧ (((server.mk okBroker).catalog (Exec.start ()) getCatalogRequest).w.status = 200
      ∧ (((JSON.parse ((server.mk okBroker).catalog (Exec.start ())
              getCatalogRequest).w.body).bind
            (JSON.field "services")).bind (JSON.index 0)).bind (JSON.field "name")
        = some (JSON.str "foo")) :=
  ⟨⟨((success_is_answered_with_the_encoded_result sampleUtil (server.mk okBroker) ()
        getCatalogRequest).1 _ rfl).1,
    ((success_is_answered_with_the_encoded_result sampleUtil (server.mk okBroker) ()
        getCatalogRequest).1 _ rfl).2.1,
    ((success_is_answered_with_the_encoded_result sampleUtil (server.mk okBroker) ()
        getCatalogRequest).1 _ rfl).2.2 rfl⟩,
   (success_is_answered_with_the_encoded_result sampleUtil (server.mk okBroker) ()
      routedGetInstanceRequest).2.1 _ rfl,
   ⟨((success_is_answered_with_the_encoded_result sampleUtil (server.mk okBroker) ()
        routedPutInstanceRequest).2.2.1 ⟨"s1", "p1", none⟩ _ rfl rfl).1,
    ((success_is_answered_with_the_encoded_result sampleUtil (server.mk okBroker) ()
        routedPutInstanceRequest).2.2.1 ⟨"s1", "p1", none⟩ _ rfl rfl).2.1,
    ((success_is_answered_with_the_encoded_result sampleUtil (server.mk okBroker) ()
        routedPutInstanceRequest).2.2.1 ⟨"s1", "p1", none⟩ _ rfl rfl).2.2 rfl⟩,
   ⟨((success_is_answered_with_the_encoded_result sampleUtil (server.mk okBroker) ()
        routedDeleteInstanceRequest).2.2.2.1 _ rfl).1,
    ((success_is_answered_with_the_encoded_result sampleUtil (server.mk okBroker) ()
        routedDeleteInstanceRequest).2.2.2.1 _ rfl).2.1,
    ((success_is_answered_with_the_encoded_result sampleUtil (server.mk okBroker) ()
        routedDeleteInstanceRequest).2.2.2.1 _ rfl).2.2 rfl⟩,
   ⟨((success_is_answered_with_the_encoded_result sampleUtil (server.mk okBroker) ()
        routedPutBindingRequest).2.2.2.2.1
        ⟨"", "", some [("instanceId", .str "other"), ("user", .str "u")]⟩ _ rfl rfl).1,
    ((success_is_answered_with_the_encoded_result sampleUtil (server.mk okBroker) ()
        routedPutBindingRequest).2.2.2.2.1
        ⟨"", "", some [("instanceId", .str "other"), ("user", .str "u")]⟩ _ rfl rfl).2.1,
    ((success_is_answered_with_the_encoded_result sampleUtil (server.mk okBroker) ()
        routedPutBindingRequest).2.2.2.2.1
        ⟨"", "", some [("instanceId", .str "other"), ("user", .str "u")]⟩ _ rfl rfl).2.2 rfl⟩,
   (success_is_answered_with_the_encoded_result sampleUtil (server.mk okBroker) ()
      getCatalogRequest).2.2.2.2.2 ⟨"foo", "", "", none⟩ [] rfl rfl⟩

/-- The catalog example, served through the router: status 200, the body text
in full, and the name read back from the body text at `services[0].name`. -/
theorem catalog_foo_response :
    (CreateHandler sampleUtil okBroker getCatalogRequest ()).w.status = 200
      ∧ (CreateHandler sampleUtil okBroker getCatalogRequest ()).w.body
        = "\x7b\"services\":[\x7b\"name\":\"foo\",\"id\":\"\",\"description\":\"\",\"plans\":null\x7d]\x7d"
      ∧ ((((JSON.parse (CreateHandler sampleUtil okBroker getCatalogRequest ()).w.body).bind
              (JSON.field "services")).bind (JSON.index 0)).bind (JSON.field "name")).bind
            JSON.asString
          = some "foo" := by
  decide

/-- The scenario of the spec: `PUT /v2/service_instances/abc` with a body that
omits the parameters, on a broker that echoes the instance id, is answered
with status 201 and that echo as the body. -/
theorem create_instance_echo_response :
    (CreateHandler sampleUtil okBroker putInstanceRequest ()).w.status = 201
      ∧ (CreateHandler sampleUtil okBroker putInstanceRequest ()).w.body
        = "\x7b\"instance_id\":\"abc\"\x7d" := by
  decide

/-- A path with a `..` element is redirected to its clean form and reaches no
handler. -/
theorem unclean_path_is_redirected :
    (CreateHandler sampleUtil okBroker ⟨"GET", "/v2/service_instances/..", "", []⟩ ()).w.status
        = 301
      ∧ (CreateHandler sampleUtil okBroker
          ⟨"GET", "/v2/service_instances/..", "", []⟩ ()).w.sentHeader = [("Location", "/v2")]
      ∧ (CreateHandler sampleUtil okBroker
          ⟨"GET", "/v2/service_instances/..", "", []⟩ ()).calls = [] := by
  refine ⟨by decide, by decide, rfl⟩

end UserBroker
